import Mathlib

/-!
# Control-channel handlers of `server/handle_misc.go`

A shallow embedding of the miscellaneous command handlers of the FTP server
(`handleAUTH`, `handlePROT`, `handlePBSZ`, `handleSYST`, `handleSTAT`,
`handleSITE`, `handleSTATServer`, `handleOPTS`, `handleNOOP`, `handleFEAT`,
`handleTYPE`, `handleQUIT`).

Every handler is a method on `*clientHandler` that returns an `error`.  Here a
handler is a function of the session (`clientHandler`) and of the outside world
(`World`: the clock, the outcome of the writes still to come, and the ordered
record of the effects performed so far) that returns the error, the session
and the world after the call.

Go strings are modelled by Lean strings (sequences of characters).
-/

namespace Ftpserver

/-! ## Values from outside the package -/

/-- A Go `error` value, identified by the text of its `Error()` method. -/
structure GoError where
  msg : String
deriving DecidableEq, Repr

/-- A `*tls.Config`, identified by a tag. -/
structure TLSConfig where
  id : Nat
deriving DecidableEq, Repr

/-- A `net.Conn`.  `tcp` is a raw connection: its peer address and the bytes
that have arrived on it and that nobody has read yet.  `tlsServer inner config`
is the value `tls.Server(inner, config)`: a wrapper that keeps `inner` itself
and does all its input and output through it. -/
inductive Conn where
  | tcp (remoteAddr : String) (unread : List Nat)
  | tlsServer (inner : Conn) (config : TLSConfig)
deriving DecidableEq, Repr

/-- The string of `conn.RemoteAddr()`; a TLS wrapper answers with the address
of the connection it wraps. -/
def Conn.RemoteAddr : Conn → String
  | .tcp remoteAddr _ => remoteAddr
  | .tlsServer inner _ => inner.RemoteAddr

/-- The bytes waiting, unread, on the raw connection underneath `conn`. -/
def Conn.unreadBytes : Conn → List Nat
  | .tcp _ unread => unread
  | .tlsServer inner _ => inner.unreadBytes

/-- A `*bufio.Reader`: the connection it reads from and the bytes it has
already taken from that connection without having handed them on. -/
structure Reader where
  rd : Conn
  buf : List Nat
deriving DecidableEq, Repr

/-- The call `bufio.NewReader(rd)`: a reader over `rd` with nothing buffered. -/
def NewReader (rd : Conn) : Reader :=
  { rd := rd, buf := [] }

/-- The bytes, in order, that a reader has in hand or can still take from the
raw connection underneath it: first its own buffer, then what is unread on the
wire. -/
def Reader.pending (r : Reader) : List Nat :=
  r.buf ++ r.rd.unreadBytes

/-! ## Status codes -/

/-- Modelled from the spec: the status constants are declared outside `src/`;
"200-range OK" and the example `TYPE A` "yields status 200". -/
def StatusOK : Nat := 200

/-- Modelled from the spec: the status constants are declared outside `src/`;
`211 "system status"`. -/
def StatusSystemStatus : Nat := 211

/-- Modelled from the spec: the status constants are declared outside `src/`;
`215 "system type"`. -/
def StatusSystemType : Nat := 215

/-- Modelled from the spec: the status constants are declared outside `src/`;
`221 (or configured) "closing control connection"`. -/
def StatusClosingControlConn : Nat := 221

/-- Modelled from the spec: the status constants are declared outside `src/`;
the positive reply to the upgrade command, with the value of the protocol's
status-code table the spec defers to (234, security data exchange complete). -/
def StatusAuthAccepted : Nat := 234

/-- Modelled from the spec: the status constants are declared outside `src/`;
the `501` family, "syntax error in parameters". -/
def StatusSyntaxErrorParameters : Nat := 501

/-- Modelled from the spec: the status constants are declared outside `src/`;
the negative reply "action not taken", with the value of the protocol's
status-code table the spec defers to (550, requested action not taken). -/
def StatusActionNotTaken : Nat := 550

/-- A reply code is positive when its first digit is 1, 2 or 3 and negative
when it is 4 or 5. -/
def isNegativeStatus (code : Nat) : Bool :=
  decide (400 ≤ code ∧ code < 600)

/-! ## The session and the world -/

/-- The fields of the server settings that the handlers read. -/
structure Settings where
  ListenAddr : String
  DisableMLSD : Bool
  DisableMLST : Bool
deriving DecidableEq, Repr

/-- The driver, as far as these handlers use it: what a call of
`GetTLSConfig()` returns. -/
structure Driver where
  GetTLSConfig : Except GoError TLSConfig

/-- The `FtpServer` a session belongs to. -/
structure FtpServer where
  settings : Settings
  driver : Driver

/-- The fields of `clientHandler` that the handlers of this file read or
write.  Times are nanoseconds since the epoch. -/
structure clientHandler where
  server : FtpServer
  conn : Conn
  reader : Reader
  user : String
  param : String
  connectedAt : Int
  transferTLS : Bool

/-- An effect a handler performs on something outside the session, in the order
performed. -/
inductive Event where
  | getTLSConfig
  | write (conn : Conn) (data : String) (err : Option GoError)
  | tlsServer (inner : Conn) (config : TLSConfig)
  | newReader (rd : Conn)
  | debug (msg : String)
  | close (conn : Conn)
  | callSTATFile
  | callCHMOD (params : String)
deriving DecidableEq, Repr

/-- What lies outside the session: `now` is the value of `time.Now().UTC()`,
`writes` holds the outcome of each write still to come (`none` is success; once
the list is used up every write succeeds), `trace` is the record of effects. -/
structure World where
  now : Int
  writes : List (Option GoError)
  trace : List Event
deriving DecidableEq, Repr

/-- Append one effect to the record. -/
def World.record (w : World) (e : Event) : World :=
  { w with trace := w.trace ++ [e] }

/-- The outcome of the next write. -/
def World.nextWrite (w : World) : Option GoError :=
  w.writes.headD none

/-- What a handler leaves behind: the returned error (`none` is `nil`), the
session and the world. -/
structure Result where
  err : Option GoError
  c : clientHandler
  w : World

/-! ## Library functions -/

/-- The function `strings.Index(s, sep)` on character sequences: the offset of
the first occurrence of `sep` in `s`, `none` where Go returns `-1`. -/
def Index (s sep : List Char) : Option Nat :=
  if sep.isPrefixOf s then some 0
  else
    match s with
    | [] => none
    | _ :: t => (Index t sep).map (· + 1)

/-- The loop of `strings.genSplit` (with `sepSave = 0`): at most `k` more cuts,
each at the first occurrence of `sep` in what is left; what is left after the
last cut is the last piece. -/
def genSplitLoop (sep : List Char) : Nat → List Char → List (List Char)
  | 0, s => [s]
  | k + 1, s =>
    match Index s sep with
    | none => [s]
    | some m => s.take m :: genSplitLoop sep k (s.drop (m + sep.length))

/-- The helper `strings.explode(s, n)`: `s` cut into single characters, at
most `n` pieces, the last piece being all that is left. -/
def explode : List Char → Nat → List (List Char)
  | _, 0 => []
  | [], _ + 1 => []
  | [a], _ + 1 => [[a]]
  | a :: b :: t, 0 + 1 => [a :: b :: t]
  | a :: b :: t, k + 2 => [a] :: explode (b :: t) (k + 1)

/-- The function `strings.SplitN(s, sep, n)` for `n ≥ 0` (`genSplit` with
`sepSave = 0`): no piece for `n = 0`, `explode` for the empty separator,
otherwise at most `n` pieces and never more than `len(s) + 1`. -/
def SplitN (s sep : String) (n : Nat) : List String :=
  if n = 0 then []
  else if sep = "" then (explode s.data n).map String.mk
  else
    let n := if n > s.data.length + 1 then s.data.length + 1 else n
    (genSplitLoop sep.data (n - 1) s.data).map String.mk

/-- The function `unicode.ToUpper(r)`: the ASCII range is mapped in place
(`a`..`z` lose `'a' - 'A'`, the rest stays); every other rune goes through the
case table of the Unicode data, which is the argument `table`. -/
def unicodeToUpper (table : Char → Char) (r : Char) : Char :=
  if r.toNat ≤ 0x7F then
    if 'a' ≤ r ∧ r ≤ 'z' then Char.ofNat (r.toNat - ('a'.toNat - 'A'.toNat)) else r
  else table r

/-- The function `strings.ToUpper(s)`: every rune of `s` mapped by
`unicode.ToUpper`. -/
def ToUpper (table : Char → Char) (s : String) : String :=
  String.mk (s.data.map (unicodeToUpper table))

/-- The constants `time.Microsecond`, `time.Millisecond` and `time.Second`, in
nanoseconds. -/
def Microsecond : Int := 1000

@[inherit_doc Microsecond]
def Millisecond : Int := 1000000

@[inherit_doc Microsecond]
def Second : Int := 1000000000

/-- The constants `minDuration` and `maxDuration` of package `time`: the
range of an `int64`. -/
def minDuration : Int := -(2 ^ 63)

@[inherit_doc minDuration]
def maxDuration : Int := 2 ^ 63 - 1

/-- The method `t.Sub(u)` on wall-clock times: the difference in nanoseconds,
replaced by `minDuration` or `maxDuration` when it does not fit a `Duration`. -/
def Sub (t u : Int) : Int :=
  if t - u < minDuration then minDuration
  else if maxDuration < t - u then maxDuration
  else t - u

/-- The helper `fmtInt` of package `time`: the decimal digits of `v`. -/
def fmtInt (v : Nat) : String :=
  Nat.repr v

/-- The loop of `fmtFrac`: `i` more digits are taken off the low end of `v`;
a digit is written (in front of what is written already) once a non-zero digit
has been seen. -/
def fmtFracLoop : Nat → Nat → Bool → List Char → List Char × Nat × Bool
  | 0, v, print, acc => (acc, v, print)
  | i + 1, v, print, acc =>
    let digit := v % 10
    let print := print || digit != 0
    let acc := if print then Char.ofNat (digit + '0'.toNat) :: acc else acc
    fmtFracLoop i (v / 10) print acc

/-- The helper `fmtFrac(buf, v, prec)` of package `time`: the fraction
`v / 10^prec` without its trailing zeros (nothing at all when it is zero), and
the integer part. -/
def fmtFrac (v prec : Nat) : String × Nat :=
  let r := fmtFracLoop prec v false []
  (String.mk (if r.2.2 then '.' :: r.1 else r.1), r.2.1)

/-- The method `Duration.String()`, as `%s` formats a `time.Duration`. -/
def DurationString (d : Int) : String :=
  let u : Nat := d.natAbs
  let neg := decide (d < 0)
  if u < Second.toNat then
    if u = 0 then "0s"
    else
      let body :=
        if u < Microsecond.toNat then fmtInt u ++ "ns"
        else if u < Millisecond.toNat then
          let f := fmtFrac u 3
          fmtInt f.2 ++ f.1 ++ "µs"
        else
          let f := fmtFrac u 6
          fmtInt f.2 ++ f.1 ++ "ms"
      if neg then "-" ++ body else body
  else
    let f := fmtFrac u 9
    let secs := fmtInt (f.2 % 60) ++ f.1 ++ "s"
    let u := f.2 / 60
    let body :=
      if u > 0 then
        let mins := fmtInt (u % 60) ++ "m" ++ secs
        let u := u / 60
        if u > 0 then fmtInt u ++ "h" ++ mins else mins
      else secs
    if neg then "-" ++ body else body

/-- What the handlers of this file take from elsewhere: the two handlers they
delegate to, which are defined in another file of the package, and the case
table of the Unicode data. -/
structure Env where
  handleSTATFile : clientHandler → World → Result
  handleCHMOD : String → clientHandler → World → Result
  upperTable : Char → Char

/-! ## Response writer -/

/-- Modelled from the spec: `writeLine` is declared outside `src/`.
"`writeLine(text)` appends a line terminator and flushes to the session's
current transport"; "any write error is surfaced to the caller"; lines are
CRLF-terminated. -/
def writeLine (c : clientHandler) (w : World) (line : String) : Option GoError × World :=
  (w.nextWrite,
   { w with writes := w.writes.tail,
            trace := w.trace ++ [Event.write c.conn (line ++ "\r\n") w.nextWrite] })

/-- Modelled from the spec: `writeMessage` is declared outside `src/`.
"`writeStatus(code, text)` writes a single terminated line formatted as
`<code> <text>`". -/
def writeMessage (c : clientHandler) (w : World) (code : Nat) (message : String) :
    Option GoError × World :=
  writeLine c w (toString code ++ " " ++ message)

/-- Modelled from the spec: `Close` is declared outside `src/`.  Quit "closes
transport after response is flushed": the session's current transport is
closed. -/
def Close (c : clientHandler) (w : World) : World :=
  w.record (Event.close c.conn)

/-! ## Handlers -/

/-- The method `handleAUTH`. -/
def handleAUTH (c : clientHandler) (w : World) : Result :=
  let w0 := w.record Event.getTLSConfig
  match c.server.driver.GetTLSConfig with
  | .error err =>
    let r := writeMessage c w0 StatusActionNotTaken ("Cannot get a TLS config: " ++ err.msg)
    { err := r.1, c := c, w := r.2 }
  | .ok tlsConfig =>
    let r := writeMessage c w0 StatusAuthAccepted "AUTH command ok. Expecting TLS Negotiation."
    match r.1 with
    | some err => { err := some err, c := c, w := r.2 }
    | none =>
      let c1 := { c with conn := Conn.tlsServer c.conn tlsConfig }
      let w1 := r.2.record (Event.tlsServer c.conn tlsConfig)
      let c2 := { c1 with reader := NewReader c1.conn }
      let w2 := w1.record (Event.newReader c1.conn)
      { err := none, c := c2, w := w2 }

/-- The method `handlePROT`. -/
def handlePROT (c : clientHandler) (w : World) : Result :=
  -- P for Private, C for Clear
  let c1 := { c with transferTLS := decide (c.param = "P") }
  let r := writeMessage c1 w StatusOK "OK"
  { err := r.1, c := c1, w := r.2 }

/-- The method `handlePBSZ`. -/
def handlePBSZ (c : clientHandler) (w : World) : Result :=
  let r := writeMessage c w StatusOK "Whatever"
  { err := r.1, c := c, w := r.2 }

/-- The method `handleSYST`. -/
def handleSYST (c : clientHandler) (w : World) : Result :=
  let r := writeMessage c w StatusSystemType "UNIX Type: L8"
  { err := r.1, c := c, w := r.2 }

/-- The method `handleSTATServer`. -/
def handleSTATServer (c : clientHandler) (w : World) : Result :=
  let r1 := writeLine c w (toString StatusSystemStatus ++ "- FTP server status:")
  match r1.1 with
  | some err => { err := some err, c := c, w := r1.2 }
  | none =>
    let duration := Sub r1.2.now c.connectedAt
    let duration := duration - Int.tmod duration Second
    let r2 := writeLine c r1.2
      ("Connected to " ++ c.server.settings.ListenAddr ++ " from " ++ c.conn.RemoteAddr ++
        " for " ++ DurationString duration)
    match r2.1 with
    | some err => { err := some err, c := c, w := r2.2 }
    | none =>
      let r3 :=
        if c.user ≠ "" then writeLine c r2.2 ("Logged in as " ++ c.user)
        else writeLine c r2.2 "Not logged in yet"
      match r3.1 with
      | some err => { err := some err, c := c, w := r3.2 }
      | none =>
        let r4 := writeLine c r3.2 "ftpserver - golang FTP server"
        match r4.1 with
        | some err => { err := some err, c := c, w := r4.2 }
        | none =>
          let r5 := writeMessage c r4.2 StatusSystemStatus "End"
          { err := r5.1, c := c, w := r5.2 }

/-- The method `handleSTAT`. -/
def handleSTAT (env : Env) (c : clientHandler) (w : World) : Result :=
  if c.param = "" then
    -- Without a file, it is the server stat
    handleSTATServer c w
  else
    -- With a file/dir it is the stat of the file or of the files of the dir
    env.handleSTATFile c (w.record Event.callSTATFile)

/-- The method `handleSITE`. -/
def handleSITE (env : Env) (c : clientHandler) (w : World) : Result :=
  let spl := SplitN c.param " " 2
  match spl with
  | spl0 :: spl1 :: _ =>
    if ToUpper env.upperTable spl0 = "CHMOD" then
      env.handleCHMOD spl1 c (w.record (Event.callCHMOD spl1))
    else
      let r := writeMessage c w StatusSyntaxErrorParameters "Not understood SITE subcommand"
      { err := r.1, c := c, w := r.2 }
  | _ =>
    let r := writeMessage c w StatusSyntaxErrorParameters "Not understood SITE subcommand"
    { err := r.1, c := c, w := r.2 }

/-- The method `handleOPTS`.  `args[0]` is read without a length check: the
model answers `none` where that index would be out of range. -/
def handleOPTS (env : Env) (c : clientHandler) (w : World) : Option Result :=
  let args := SplitN c.param " " 2
  match args with
  | [] => none
  | args0 :: _ =>
    if ToUpper env.upperTable args0 = "UTF8" then
      let r := writeMessage c w StatusOK "I'm in UTF8 only anyway"
      some { err := r.1, c := c, w := r.2 }
    else
      let r := writeMessage c w StatusSyntaxErrorParameters "Don't know this option"
      some { err := r.1, c := c, w := r.2 }

/-- The method `handleNOOP`. -/
def handleNOOP (c : clientHandler) (w : World) : Result :=
  let r := writeMessage c w StatusOK "OK"
  { err := r.1, c := c, w := r.2 }

/-- The `features` slice that `handleFEAT` builds from the settings. -/
def features (settings : Settings) : List String :=
  let features := ["UTF8", "SIZE", "MDTM", "REST STREAM"]
  let features := if !settings.DisableMLSD then features ++ ["MLSD"] else features
  let features := if !settings.DisableMLST then features ++ ["MLST"] else features
  features

/-- The loop `for _, f := range features` of `handleFEAT`: one line per
feature, stopping at the first write that fails. -/
def writeFeatures (c : clientHandler) : World → List String → Option GoError × World
  | w, [] => (none, w)
  | w, f :: fs =>
    let r := writeLine c w (" " ++ f)
    match r.1 with
    | some err => (some err, r.2)
    | none => writeFeatures c r.2 fs

/-- The method `handleFEAT`. -/
def handleFEAT (c : clientHandler) (w : World) : Result :=
  let r1 := writeLine c w (toString StatusSystemStatus ++ "- These are my features")
  match r1.1 with
  | some err => { err := some err, c := c, w := r1.2 }
  | none =>
    let r2 := writeFeatures c r1.2 (features c.server.settings)
    match r2.1 with
    | some err => { err := some err, c := c, w := r2.2 }
    | none =>
      let r3 := writeMessage c r2.2 StatusSystemStatus "End"
      { err := r3.1, c := c, w := r3.2 }

/-- The method `handleTYPE`. -/
def handleTYPE (c : clientHandler) (w : World) : Result :=
  if c.param = "I" then
    let r := writeMessage c w StatusOK "Type set to binary"
    { err := r.1, c := c, w := r.2 }
  else if c.param = "A" then
    let r := writeMessage c w StatusOK "WARNING: ASCII isn't correctly supported"
    { err := r.1, c := c, w := r.2 }
  else
    let r := writeMessage c w StatusSyntaxErrorParameters "Not understood"
    { err := r.1, c := c, w := r.2 }

/-- The method `handleQUIT`. -/
def handleQUIT (c : clientHandler) (w : World) : Result :=
  let r := writeMessage c w StatusClosingControlConn "Goodbye"
  match r.1 with
  | some err => { err := some err, c := c, w := r.2 }
  | none =>
    let w1 := r.2.record (Event.debug "Clean disconnect")
    let w2 := Close c w1
    { err := none, c := c, w := w2 }

/-! ## Vocabulary of the properties -/

/-- Every write still to come succeeds. -/
def World.allWritesSucceed (w : World) : Prop :=
  ∀ o ∈ w.writes, o = none

instance (w : World) : Decidable w.allWritesSucceed :=
  inferInstanceAs (Decidable (∀ o ∈ w.writes, o = none))

/-- The event of a line written with success on `conn`. -/
def wrote (conn : Conn) (line : String) : Event :=
  Event.write conn (line ++ "\r\n") none

/-- The parameter contains a space. -/
def hasSpace (p : String) : Prop :=
  ' ' ∈ p.data

instance (p : String) : Decidable (hasSpace p) :=
  inferInstanceAs (Decidable (' ' ∈ p.data))

/-- The text of `p` before its first space: all of `p` when it has no space. -/
def beforeFirstSpace (p : String) : String :=
  String.mk (p.data.takeWhile fun ch => ch != ' ')

/-- The text of `p` after its first space. -/
def afterFirstSpace (p : String) : String :=
  String.mk (p.data.dropWhile fun ch => ch != ' ').tail

/-- The events recorded after the first `n` ones. -/
def eventsAfter (n : Nat) (w : World) : List Event :=
  w.trace.drop n

/-- The event is a write. -/
def Event.isWrite : Event → Bool
  | .write _ _ _ => true
  | _ => false

/-- The error of a write that failed; `none` for a write that succeeded and
for every other event. -/
def Event.failure : Event → Option GoError
  | .write _ _ err => err
  | _ => none

/-- The text put on the wire by the writes of a stretch of the record, one
entry per write, in order. -/
def linesOf (es : List Event) : List String :=
  es.filterMap fun e => match e with
    | .write _ data _ => some data
    | _ => none

/-- The line begins with three digits. -/
def hasCodePrefix (data : String) : Bool :=
  match data.data with
  | a :: b :: c :: _ => a.isDigit && b.isDigit && c.isDigit
  | _ => false

/-- The line is a status line, `<code> <text>`: three digits and a space. -/
def isStatusLine (data : String) : Bool :=
  match data.data with
  | a :: b :: c :: ' ' :: _ => a.isDigit && b.isDigit && c.isDigit
  | _ => false

/-- The line begins with one space, and only one. -/
def hasLeadingSpace (data : String) : Bool :=
  match data.data with
  | ' ' :: ch :: _ => ch != ' '
  | _ => false

/-- One logical response: the handler returns no error, exactly one of the
lines it has written since the first `n` events is a status line, and that
line is the last line it has written. -/
def oneLogicalResponse (n : Nat) (r : Result) : Prop :=
  r.err = none ∧
  ((linesOf (eventsAfter n r.w)).filter isStatusLine).length = 1 ∧
  ((linesOf (eventsAfter n r.w)).getLast?.map isStatusLine) = some true

instance (n : Nat) (r : Result) : Decidable (oneLogicalResponse n r) :=
  inferInstanceAs (Decidable (_ ∧ _ ∧ _))

/-- The handler stops at a failed write: whenever the events it has added
since the first `n` ones hold a write that failed with `e`, that write is the
last event of all, no write before it has failed, and `e` is what the handler
returns. -/
def stopsAtFailedWrite (n : Nat) (r : Result) : Prop :=
  ∀ (pre post : List Event) (conn : Conn) (data : String) (e : GoError),
    eventsAfter n r.w = pre ++ Event.write conn data (some e) :: post →
    post = [] ∧ r.err = some e ∧ ∀ x ∈ pre, x.failure = none

/-- A stretch of events that ends at its first failure, if it has one: no
event but the last is a failed write, and `err` is the failure of the last. -/
def endsAtFailure (es : List Event) (err : Option GoError) : Prop :=
  (∀ x ∈ es.dropLast, x.failure = none) ∧ es.getLast?.bind Event.failure = err

/-- The status codes that the handlers of this file use. -/
def statusCodes : List Nat :=
  [StatusOK, StatusSystemStatus, StatusSystemType, StatusClosingControlConn,
   StatusAuthAccepted, StatusSyntaxErrorParameters, StatusActionNotTaken]

/-- The handler has done one thing since the world `w`: one write, on the
connection of the session `c`, of a status line with one of the codes of this
file; and it returns the outcome of that write. -/
def singleStatusWrite (c : clientHandler) (w : World) (r : Result) : Prop :=
  ∃ (code : Nat) (text : String), code ∈ statusCodes ∧
    r.err = w.nextWrite ∧
    eventsAfter w.trace.length r.w =
      [Event.write c.conn (toString code ++ " " ++ text ++ "\r\n") w.nextWrite]

/-! ## Sample sessions -/

/-- A plaintext connection with nothing unread on the wire. -/
def sampleConn : Conn :=
  Conn.tcp "192.0.2.7:50312" []

/-- A session whose driver has no TLS configuration to give. -/
def sampleNoTLS : clientHandler :=
  { server := { settings := { ListenAddr := "0.0.0.0:2121", DisableMLSD := false,
                              DisableMLST := true },
                driver := { GetTLSConfig := .error { msg := "no certificate" } } },
    conn := sampleConn,
    reader := NewReader sampleConn,
    user := "",
    param := "",
    connectedAt := 0,
    transferTLS := false }

/-- A session whose driver returns a TLS configuration, and whose reader has
already taken three bytes off the wire that the command loop has not seen. -/
def sampleTLS : clientHandler :=
  { server := { settings := { ListenAddr := "0.0.0.0:2121", DisableMLSD := false,
                              DisableMLST := false },
                driver := { GetTLSConfig := .ok { id := 1 } } },
    conn := sampleConn,
    reader := { rd := sampleConn, buf := [22, 3, 1] },
    user := "alice",
    param := "TLS",
    connectedAt := 0,
    transferTLS := false }

/-- A world in which every write succeeds, 61.5 seconds after the epoch. -/
def sampleWorld : World :=
  { now := 61500000000, writes := [], trace := [] }

/-- A world whose first write fails. -/
def sampleBrokenWorld : World :=
  { now := 61500000000, writes := [some { msg := "broken pipe" }], trace := [] }

/-- A stand-in for the rest of the package: each delegate writes one line of
its own and returns the outcome, and the case table leaves every rune as it
is. -/
def sampleEnv : Env :=
  { handleSTATFile := fun c w =>
      let r := writeMessage c w StatusOK ("stat of " ++ c.param)
      { err := r.1, c := c, w := r.2 },
    handleCHMOD := fun params c w =>
      let r := writeMessage c w StatusOK ("chmod " ++ params)
      { err := r.1, c := c, w := r.2 },
    upperTable := fun r => r }

/-! ## Theorems -/

/-! ### The response writer, field by field -/

@[simp] theorem World.record_now (w : World) (e : Event) : (w.record e).now = w.now := rfl

@[simp] theorem World.record_writes (w : World) (e : Event) :
    (w.record e).writes = w.writes := rfl

@[simp] theorem World.record_trace (w : World) (e : Event) :
    (w.record e).trace = w.trace ++ [e] := rfl

@[simp] theorem World.record_nextWrite (w : World) (e : Event) :
    (w.record e).nextWrite = w.nextWrite := rfl

@[simp] theorem writeLine_fst (c : clientHandler) (w : World) (line : String) :
    (writeLine c w line).1 = w.nextWrite := rfl

@[simp] theorem writeLine_now (c : clientHandler) (w : World) (line : String) :
    (writeLine c w line).2.now = w.now := rfl

@[simp] theorem writeLine_writes (c : clientHandler) (w : World) (line : String) :
    (writeLine c w line).2.writes = w.writes.tail := rfl

@[simp] theorem writeLine_trace (c : clientHandler) (w : World) (line : String) :
    (writeLine c w line).2.trace =
      w.trace ++ [Event.write c.conn (line ++ "\r\n") w.nextWrite] := rfl

@[simp] theorem writeMessage_fst (c : clientHandler) (w : World) (code : Nat)
    (message : String) : (writeMessage c w code message).1 = w.nextWrite := rfl

@[simp] theorem writeMessage_now (c : clientHandler) (w : World) (code : Nat)
    (message : String) : (writeMessage c w code message).2.now = w.now := rfl

@[simp] theorem writeMessage_writes (c : clientHandler) (w : World) (code : Nat)
    (message : String) : (writeMessage c w code message).2.writes = w.writes.tail := rfl

@[simp] theorem writeMessage_trace (c : clientHandler) (w : World) (code : Nat)
    (message : String) :
    (writeMessage c w code message).2.trace =
      w.trace ++ [Event.write c.conn (toString code ++ " " ++ message ++ "\r\n") w.nextWrite] :=
  rfl

/-- The result of `handleAUTH` when `GetTLSConfig` succeeds and the write of
the announcement succeeds. -/
theorem handleAUTH_ok_ok (c : clientHandler) (w : World) (config : TLSConfig)
    (h : c.server.driver.GetTLSConfig = .ok config) (hw : w.nextWrite = none) :
    handleAUTH c w =
      { err := none,
        c := { c with conn := Conn.tlsServer c.conn config,
                      reader := NewReader (Conn.tlsServer c.conn config) },
        w := (((writeMessage c (w.record Event.getTLSConfig) StatusAuthAccepted
                "AUTH command ok. Expecting TLS Negotiation.").2.record
                (Event.tlsServer c.conn config)).record
                (Event.newReader (Conn.tlsServer c.conn config))) } := by
  unfold handleAUTH
  simp only [h, writeMessage_fst, World.record_nextWrite, hw]

/-- The result of `handleAUTH` when `GetTLSConfig` succeeds and the write of
the announcement fails. -/
theorem handleAUTH_ok_err (c : clientHandler) (w : World) (config : TLSConfig) (e : GoError)
    (h : c.server.driver.GetTLSConfig = .ok config) (hw : w.nextWrite = some e) :
    handleAUTH c w =
      { err := some e, c := c,
        w := (writeMessage c (w.record Event.getTLSConfig) StatusAuthAccepted
                "AUTH command ok. Expecting TLS Negotiation.").2 } := by
  unfold handleAUTH
  simp only [h, writeMessage_fst, World.record_nextWrite, hw]

/-- C1: when `GetTLSConfig` returns an error, `handleAUTH` makes exactly one
write, the status line of `StatusActionNotTaken` (a negative status) on the
session's connection, leaves the session (its `conn` and `reader` among the
rest) as it was, and returns the result of that write. -/
theorem handleAUTH_config_error (c : clientHandler) (w : World) (e : GoError)
    (h : c.server.driver.GetTLSConfig = .error e) :
    (handleAUTH c w).c.conn = c.conn ∧
    (handleAUTH c w).c.reader = c.reader ∧
    (handleAUTH c w).c = c ∧
    (handleAUTH c w).w.trace = w.trace ++
      [Event.getTLSConfig,
       Event.write c.conn
         (toString StatusActionNotTaken ++ " " ++ ("Cannot get a TLS config: " ++ e.msg) ++ "\r\n")
         w.nextWrite] ∧
    isNegativeStatus StatusActionNotTaken = true ∧
    (handleAUTH c w).err = w.nextWrite ∧
    ((handleAUTH c w).err, (handleAUTH c w).w) =
      writeMessage c (w.record Event.getTLSConfig) StatusActionNotTaken
        ("Cannot get a TLS config: " ++ e.msg) := by
  simp [handleAUTH, h, writeMessage, writeLine, World.record, World.nextWrite,
    isNegativeStatus, StatusActionNotTaken]

/-- The witness of `handleAUTH_config_error`: the session `sampleNoTLS`. -/
theorem handleAUTH_config_error_witness :
    sampleNoTLS.server.driver.GetTLSConfig = .error { msg := "no certificate" } ∧
    (handleAUTH sampleNoTLS sampleWorld).c = sampleNoTLS ∧
    (handleAUTH sampleNoTLS sampleWorld).w.trace =
      [Event.getTLSConfig,
       Event.write sampleConn "550 Cannot get a TLS config: no certificate\r\n" none] ∧
    (handleAUTH sampleNoTLS sampleWorld).err = none :=
  have h := handleAUTH_config_error sampleNoTLS sampleWorld { msg := "no certificate" } rfl
  ⟨rfl, h.2.2.1, by decide, h.2.2.2.2.2.1⟩

/-- A TLS wrapper is never the connection it wraps. -/
theorem Conn.tlsServer_ne_self (conn : Conn) (config : TLSConfig) :
    Conn.tlsServer conn config ≠ conn := by
  intro h
  have := congrArg sizeOf h
  simp at this
  omega

/-- C2: when `GetTLSConfig` succeeds, the effects of `handleAUTH` are, in
order: the call of `GetTLSConfig`, one write of the `StatusAuthAccepted` line
on the connection the session had at the call, and then, only when that write
has succeeded, the wrapping of that connection by the TLS server and the new
reader.  The connection changes only after a successful write, the only write
is on the old connection, and the new connection is another one. -/
theorem handleAUTH_write_before_upgrade (c : clientHandler) (w : World) (config : TLSConfig)
    (h : c.server.driver.GetTLSConfig = .ok config) :
    (handleAUTH c w).w.trace = w.trace ++
      ([Event.getTLSConfig,
        Event.write c.conn
          (toString StatusAuthAccepted ++ " " ++ "AUTH command ok. Expecting TLS Negotiation." ++
            "\r\n")
          w.nextWrite] ++
       if w.nextWrite = none then
         [Event.tlsServer c.conn config, Event.newReader (Conn.tlsServer c.conn config)]
       else []) ∧
    isNegativeStatus StatusAuthAccepted = false ∧
    (w.nextWrite = none → (handleAUTH c w).c.conn = Conn.tlsServer c.conn config) ∧
    ((handleAUTH c w).c.conn ≠ c.conn → w.nextWrite = none) ∧
    (∀ e ∈ (handleAUTH c w).w.trace.drop w.trace.length,
      ∀ conn data err, e = Event.write conn data err → conn = c.conn) ∧
    Conn.tlsServer c.conn config ≠ c.conn := by
  have key : (handleAUTH c w).w.trace = w.trace ++
      ([Event.getTLSConfig,
        Event.write c.conn
          (toString StatusAuthAccepted ++ " " ++ "AUTH command ok. Expecting TLS Negotiation." ++
            "\r\n")
          w.nextWrite] ++
       if w.nextWrite = none then
         [Event.tlsServer c.conn config, Event.newReader (Conn.tlsServer c.conn config)]
       else []) := by
    cases hw : w.nextWrite with
    | none => rw [handleAUTH_ok_ok c w config h hw]; simp [hw]
    | some e => rw [handleAUTH_ok_err c w config e h hw]; simp [hw]
  refine ⟨key, by decide, ?_, ?_, ?_, Conn.tlsServer_ne_self _ _⟩
  · intro hw
    rw [handleAUTH_ok_ok c w config h hw]
  · intro hne
    cases hw : w.nextWrite with
    | none => rfl
    | some e =>
      exfalso
      apply hne
      rw [handleAUTH_ok_err c w config e h hw]
  · intro e he conn data err heq
    rw [key, List.drop_left] at he
    subst heq
    cases hw : w.nextWrite <;> simp [hw] at he <;> exact he.1

/-- The witness of `handleAUTH_write_before_upgrade`: the session `sampleTLS`. -/
theorem handleAUTH_write_before_upgrade_witness :
    sampleTLS.server.driver.GetTLSConfig = .ok { id := 1 } ∧
    (handleAUTH sampleTLS sampleWorld).w.trace =
      [Event.getTLSConfig,
       Event.write sampleConn "234 AUTH command ok. Expecting TLS Negotiation.\r\n" none,
       Event.tlsServer sampleConn { id := 1 },
       Event.newReader (Conn.tlsServer sampleConn { id := 1 })] :=
  ⟨rfl, (handleAUTH_write_before_upgrade sampleTLS sampleWorld { id := 1 } rfl).1.trans
    (by decide)⟩

/-- C3, as stated, fails: `sampleTLS` has a reader holding three bytes that it
has read from the connection and not delivered; `handleAUTH` succeeds, and the
reader of the session afterwards has nothing in hand and nothing to take from
the wire, so those bytes are not delivered. -/
theorem handleAUTH_drops_buffered_bytes :
    sampleTLS.server.driver.GetTLSConfig = .ok { id := 1 } ∧
    (handleAUTH sampleTLS sampleWorld).err = none ∧
    sampleTLS.reader.rd = sampleTLS.conn ∧
    sampleTLS.reader.buf = [22, 3, 1] ∧
    (handleAUTH sampleTLS sampleWorld).c.reader.pending = [] ∧
    ¬ (sampleTLS.reader.buf <+: (handleAUTH sampleTLS sampleWorld).c.reader.pending) := by
  refine ⟨rfl, rfl, rfl, rfl, rfl, ?_⟩
  have h : (handleAUTH sampleTLS sampleWorld).c.reader.pending = [] := rfl
  rw [h]
  decide

/-- C3, amended: when `handleAUTH` succeeds, the reader of the session is a
new reader, with an empty buffer, over the TLS wrapper of the very connection
the session had; what is unread on the wire is what it was, and it is all the
new reader has to deliver.  The bytes that the old reader held are exactly
what is missing: the bytes to deliver are the same as before if and only if
the old reader held none. -/
theorem handleAUTH_fresh_reader (c : clientHandler) (w : World) (config : TLSConfig)
    (h : c.server.driver.GetTLSConfig = .ok config) (hs : (handleAUTH c w).err = none) :
    (handleAUTH c w).c.conn = Conn.tlsServer c.conn config ∧
    (handleAUTH c w).c.reader = NewReader (Conn.tlsServer c.conn config) ∧
    (handleAUTH c w).c.reader.buf = [] ∧
    (handleAUTH c w).c.conn.unreadBytes = c.conn.unreadBytes ∧
    (handleAUTH c w).c.reader.pending = c.conn.unreadBytes ∧
    (c.reader.rd = c.conn →
      c.reader.pending = c.reader.buf ++ (handleAUTH c w).c.reader.pending) ∧
    (c.reader.rd = c.conn →
      ((handleAUTH c w).c.reader.pending = c.reader.pending ↔ c.reader.buf = [])) := by
  have hw : w.nextWrite = none := by
    cases hw : w.nextWrite with
    | none => rfl
    | some e => rw [handleAUTH_ok_err c w config e h hw] at hs; cases hs
  rw [handleAUTH_ok_ok c w config h hw]
  refine ⟨rfl, rfl, rfl, rfl, by simp [Reader.pending, NewReader, Conn.unreadBytes], ?_, ?_⟩
  · intro hrd
    simp [Reader.pending, NewReader, Conn.unreadBytes, hrd]
  · intro hrd
    simp [Reader.pending, NewReader, Conn.unreadBytes, hrd, eq_comm]

/-- The witness of `handleAUTH_fresh_reader`: the session `sampleTLS`. -/
theorem handleAUTH_fresh_reader_witness :
    sampleTLS.server.driver.GetTLSConfig = .ok { id := 1 } ∧
    (handleAUTH sampleTLS sampleWorld).err = none ∧
    (handleAUTH sampleTLS sampleWorld).c.reader =
      NewReader (Conn.tlsServer sampleTLS.conn { id := 1 }) :=
  ⟨rfl, rfl, (handleAUTH_fresh_reader sampleTLS sampleWorld { id := 1 } rfl rfl).2.1⟩

/-- A world in which every write succeeds: the next write succeeds. -/
theorem World.allWritesSucceed.nextWrite {w : World} (hw : w.allWritesSucceed) :
    w.nextWrite = none := by
  unfold World.nextWrite
  cases hws : w.writes with
  | nil => rfl
  | cons o rest => exact hw o (by simp [hws])

/-- A world in which every write succeeds stays so after a line is written. -/
theorem World.allWritesSucceed.writeLine {w : World} (hw : w.allWritesSucceed)
    (c : clientHandler) (line : String) : (Ftpserver.writeLine c w line).2.allWritesSucceed := by
  intro o ho
  exact hw o (List.mem_of_mem_tail ho)

/-- The loop of `handleFEAT` when every write succeeds: one line per feature,
each with a leading space, in the order of the slice. -/
theorem writeFeatures_ok (c : clientHandler) (fs : List String) :
    ∀ w : World, w.allWritesSucceed →
      (writeFeatures c w fs).1 = none ∧
      (writeFeatures c w fs).2.allWritesSucceed ∧
      (writeFeatures c w fs).2.trace = w.trace ++ fs.map fun f => wrote c.conn (" " ++ f) := by
  induction fs with
  | nil => intro w hw; simp [writeFeatures, hw]
  | cons f fs ih =>
    intro w hw
    have h1 := ih _ (hw.writeLine c (" " ++ f))
    unfold writeFeatures
    simp only [writeLine_fst, hw.nextWrite]
    refine ⟨h1.1, h1.2.1, ?_⟩
    rw [h1.2.2]
    simp [hw.nextWrite, wrote]

/-- C4: when every write succeeds, `handleFEAT` writes its opening line, then
the lines ` UTF8`, ` SIZE`, ` MDTM`, ` REST STREAM`, then ` MLSD` exactly when
`DisableMLSD` is false, then ` MLST` exactly when `DisableMLST` is false, then
its closing line, and nothing else; no token line comes twice. -/
theorem handleFEAT_token_lines (c : clientHandler) (w : World) (hw : w.allWritesSucceed) :
    (handleFEAT c w).w.trace = w.trace ++
      ([wrote c.conn (toString StatusSystemStatus ++ "- These are my features")] ++
       ([" UTF8", " SIZE", " MDTM", " REST STREAM"] ++
         (if c.server.settings.DisableMLSD = false then [" MLSD"] else []) ++
         (if c.server.settings.DisableMLST = false then [" MLST"] else [])).map (wrote c.conn) ++
       [wrote c.conn (toString StatusSystemStatus ++ " " ++ "End")]) ∧
    ([" UTF8", " SIZE", " MDTM", " REST STREAM"] ++
         (if c.server.settings.DisableMLSD = false then [" MLSD"] else []) ++
         (if c.server.settings.DisableMLST = false then [" MLST"] else [])).Nodup ∧
    (handleFEAT c w).err = none ∧
    (handleFEAT c w).c = c := by
  have h1 := hw.nextWrite
  have h2 := writeFeatures_ok c (features c.server.settings) _
    (hw.writeLine c (toString StatusSystemStatus ++ "- These are my features"))
  have h3 := h2.2.1.nextWrite
  refine ⟨?_, ?_, ?_, ?_⟩
  · unfold handleFEAT
    simp only [writeLine_fst, h1, h2.1, writeMessage_trace, h2.2.2, writeLine_trace, h3]
    cases hD : c.server.settings.DisableMLSD <;> cases hT : c.server.settings.DisableMLST <;>
      simp [features, hD, hT, wrote]
  · cases hD : c.server.settings.DisableMLSD <;> cases hT : c.server.settings.DisableMLST <;>
      decide
  · unfold handleFEAT
    simp only [writeLine_fst, h1, h2.1, writeMessage_fst, h3]
  · unfold handleFEAT
    simp only [writeLine_fst, h1, h2.1]

/-- The witness of `handleFEAT_token_lines`: a session with `DisableMLST` set. -/
theorem handleFEAT_token_lines_witness :
    sampleWorld.allWritesSucceed ∧
    (handleFEAT sampleNoTLS sampleWorld).w.trace =
      [wrote sampleConn "211- These are my features",
       wrote sampleConn " UTF8", wrote sampleConn " SIZE", wrote sampleConn " MDTM",
       wrote sampleConn " REST STREAM", wrote sampleConn " MLSD",
       wrote sampleConn "211 End"] :=
  ⟨by decide, (handleFEAT_token_lines sampleNoTLS sampleWorld (by decide)).1.trans (by decide)⟩

/-- C5: for every parameter, `handleTYPE` makes one write, a single status
line, and leaves the session as it was; nothing is closed.  The status is
`StatusOK` when the parameter is exactly `I` or exactly `A` (with the text of
a warning for `A`) and `StatusSyntaxErrorParameters` for every other
parameter, the empty one and the lower-case letters included. -/
theorem handleTYPE_response (c : clientHandler) (w : World) :
    (handleTYPE c w).c = c ∧
    (handleTYPE c w).err = w.nextWrite ∧
    (handleTYPE c w).w.trace = w.trace ++
      [Event.write c.conn
        (toString (if c.param = "I" ∨ c.param = "A" then StatusOK
                   else StatusSyntaxErrorParameters) ++ " " ++
          (if c.param = "I" then "Type set to binary"
           else if c.param = "A" then "WARNING: ASCII isn't correctly supported"
           else "Not understood") ++ "\r\n")
        w.nextWrite] ∧
    (∀ p ∈ ["", "i", "a", "I ", " A", "AI"], ¬ (p = "I" ∨ p = "A")) ∧
    isNegativeStatus StatusSyntaxErrorParameters = true ∧
    isNegativeStatus StatusOK = false := by
  refine ⟨?_, ?_, ?_, by decide, by decide, by decide⟩
  · unfold handleTYPE; split_ifs <;> rfl
  · unfold handleTYPE; split_ifs <;> rfl
  · by_cases hI : c.param = "I"
    · simp [handleTYPE, hI]
    · by_cases hA : c.param = "A"
      · simp [handleTYPE, hA]
      · simp [handleTYPE, hI, hA]

/-- C6, as stated, fails: in a world whose first write fails, `handleQUIT`
attempts the closing response, returns the error of the write, and does not
close the transport. -/
theorem handleQUIT_write_error_no_close :
    (handleQUIT sampleNoTLS sampleBrokenWorld).err = some { msg := "broken pipe" } ∧
    (handleQUIT sampleNoTLS sampleBrokenWorld).w.trace =
      [Event.write sampleConn "221 Goodbye\r\n" (some { msg := "broken pipe" })] ∧
    Event.close sampleNoTLS.conn ∉ (handleQUIT sampleNoTLS sampleBrokenWorld).w.trace := by
  decide

/-- C6, amended: `handleQUIT` always attempts exactly one write, the closing
response (`StatusClosingControlConn`, `Goodbye`), first of all its effects.
When that write succeeds it then logs, closes the transport once and returns
`nil`; when the write fails it returns the error of the write and closes
nothing.  The session is left as it was. -/
theorem handleQUIT_effects (c : clientHandler) (w : World) :
    (handleQUIT c w).w.trace = w.trace ++
      ([Event.write c.conn (toString StatusClosingControlConn ++ " " ++ "Goodbye" ++ "\r\n")
          w.nextWrite] ++
       if w.nextWrite = none then [Event.debug "Clean disconnect", Event.close c.conn]
       else []) ∧
    (handleQUIT c w).err = w.nextWrite ∧
    (handleQUIT c w).c = c ∧
    (Event.close c.conn ∈ eventsAfter w.trace.length (handleQUIT c w).w ↔
      w.nextWrite = none) := by
  cases hw : w.nextWrite with
  | none => simp [handleQUIT, hw, Close, eventsAfter]
  | some e => simp [handleQUIT, hw, Close, eventsAfter]

/-- The events that `handleSTATServer` adds to the record are writes. -/
theorem handleSTATServer_only_writes (c : clientHandler) (w : World) :
    ∀ e ∈ eventsAfter w.trace.length (handleSTATServer c w).w, e.isWrite = true := by
  unfold handleSTATServer eventsAfter
  simp only [writeLine_fst, writeMessage_fst]
  split
  · simp [Event.isWrite]
  · split
    · simp [Event.isWrite]
    · split
      · split_ifs <;> simp [Event.isWrite]
      · split
        · split_ifs <;> simp [Event.isWrite]
        · split_ifs <;> simp [Event.isWrite]

/-- C7: with an empty parameter `handleSTAT` is `handleSTATServer`, whose
effects are writes only: `handleSTATFile` is not called.  With a non-empty
parameter `handleSTAT` is one call of `handleSTATFile`, on the session as it
is and on a world to which nothing but that call has been added: it writes
nothing itself and returns what the call returns. -/
theorem handleSTAT_dispatch (env : Env) (c : clientHandler) (w : World) :
    (c.param = "" →
      handleSTAT env c w = handleSTATServer c w ∧
      Event.callSTATFile ∉ eventsAfter w.trace.length (handleSTAT env c w).w) ∧
    (c.param ≠ "" →
      handleSTAT env c w = env.handleSTATFile c (w.record Event.callSTATFile) ∧
      (w.record Event.callSTATFile).trace = w.trace ++ [Event.callSTATFile] ∧
      (w.record Event.callSTATFile).writes = w.writes ∧
      (w.record Event.callSTATFile).now = w.now) := by
  constructor
  · intro hp
    have hEq : handleSTAT env c w = handleSTATServer c w := by simp [handleSTAT, hp]
    refine ⟨hEq, ?_⟩
    rw [hEq]
    intro hmem
    have := handleSTATServer_only_writes c w _ hmem
    simp [Event.isWrite] at this
  · intro hp
    exact ⟨by simp [handleSTAT, hp], rfl, rfl, rfl⟩

/-- The witness of `handleSTAT_dispatch`: a session without parameter, and
the same session with the parameter `/pub`. -/
theorem handleSTAT_dispatch_witness :
    (handleSTAT sampleEnv sampleNoTLS sampleWorld).w.trace =
      (handleSTATServer sampleNoTLS sampleWorld).w.trace ∧
    (handleSTAT sampleEnv { sampleNoTLS with param := "/pub" } sampleWorld).w.trace =
      [Event.callSTATFile, Event.write sampleConn "200 stat of /pub\r\n" none] :=
  ⟨congrArg (fun r => r.w.trace)
      ((handleSTAT_dispatch sampleEnv sampleNoTLS sampleWorld).1 rfl).1,
   (congrArg (fun r => r.w.trace)
      ((handleSTAT_dispatch sampleEnv { sampleNoTLS with param := "/pub" } sampleWorld).2
        (by decide)).1).trans (by decide)⟩

/-- C8: for every parameter, `handlePROT` sets `transferTLS` to true exactly
when the parameter is `P`, leaves every other field of the session as it was,
replaces no transport, and makes one write, the status line of `StatusOK`. -/
theorem handlePROT_effects (c : clientHandler) (w : World) :
    ((handlePROT c w).c.transferTLS = true ↔ c.param = "P") ∧
    (handlePROT c w).c.conn = c.conn ∧
    (handlePROT c w).c.reader = c.reader ∧
    (handlePROT c w).c.user = c.user ∧
    (handlePROT c w).c.connectedAt = c.connectedAt ∧
    (handlePROT c w).c.param = c.param ∧
    (handlePROT c w).c.server = c.server ∧
    (handlePROT c w).w.trace = w.trace ++
      [Event.write c.conn (toString StatusOK ++ " " ++ "OK" ++ "\r\n") w.nextWrite] ∧
    (handlePROT c w).err = w.nextWrite ∧
    (∀ p ∈ ["", "p", "C", "P ", "PP"], p ≠ "P") := by
  refine ⟨?_, rfl, rfl, rfl, rfl, rfl, rfl, rfl, rfl, by decide⟩
  simp [handlePROT]

/-- The function `strings.Index` for the separator of one space: the length of
the run of characters before the first space, `-1` when there is no space. -/
theorem Index_space (s : List Char) :
    Index s [' '] =
      if ' ' ∈ s then some (s.takeWhile fun ch => ch != ' ').length else none := by
  induction s with
  | nil => simp [Index, List.isPrefixOf]
  | cons a t ih =>
    unfold Index
    by_cases ha : a = ' '
    · subst ha
      simp [List.isPrefixOf]
    · have ha2 : ¬ (' ' = a) := fun h => ha h.symm
      simp only [List.isPrefixOf, ih]
      by_cases ht : ' ' ∈ t
      · simp [ha, ha2, ht]
      · simp [ha, ha2, ht]

/-- Cutting a sequence at the length of its longest run satisfying `q` gives
that run. -/
theorem take_length_takeWhile (q : Char → Bool) (s : List Char) :
    s.take (s.takeWhile q).length = s.takeWhile q := by
  induction s with
  | nil => simp
  | cons a t ih =>
    by_cases ha : q a = true
    · simp [List.takeWhile_cons, ha, ih]
    · simp [List.takeWhile_cons, ha]

/-- Dropping the longest run satisfying `q` by its length gives the rest. -/
theorem drop_length_takeWhile (q : Char → Bool) (s : List Char) :
    s.drop (s.takeWhile q).length = s.dropWhile q := by
  induction s with
  | nil => simp
  | cons a t ih =>
    by_cases ha : q a = true
    · simp [List.takeWhile_cons, List.dropWhile_cons, ha, ih]
    · simp [List.takeWhile_cons, List.dropWhile_cons, ha]

/-- The call `strings.SplitN(p, " ", 2)`: the text before the first space and
the text after it when `p` has a space, `p` alone otherwise. -/
theorem SplitN_space (p : String) :
    SplitN p " " 2 =
      if hasSpace p then [beforeFirstSpace p, afterFirstSpace p] else [p] := by
  have hsep : (" " : String).data = [' '] := rfl
  have hne : (" " : String) ≠ "" := by decide
  unfold SplitN
  simp only [hne, if_false, hsep]
  by_cases hp : p.data = []
  · have : p = "" := String.ext hp
    subst this
    decide
  · have hlen : ¬ (2 > p.data.length + 1) := by
      have : 0 < p.data.length := List.length_pos.mpr hp
      omega
    simp only [hlen, if_false]
    show List.map String.mk (genSplitLoop [' '] 1 p.data) = _
    unfold genSplitLoop
    rw [Index_space]
    by_cases hs : ' ' ∈ p.data
    · simp only [hs, if_true, hasSpace, genSplitLoop, List.map, beforeFirstSpace, afterFirstSpace,
        take_length_takeWhile, List.length_singleton, ← List.tail_drop, drop_length_takeWhile]
    · simp [hs, hasSpace]

/-- A parameter without space is all before its first space. -/
theorem beforeFirstSpace_of_not_hasSpace (p : String) (h : ¬ hasSpace p) :
    beforeFirstSpace p = p := by
  unfold beforeFirstSpace
  apply String.ext
  show List.takeWhile (fun ch => ch != ' ') p.data = p.data
  rw [List.takeWhile_eq_self_iff]
  intro x hx
  have : x ≠ ' ' := by
    intro hxs
    subst hxs
    exact h hx
  simpa using this

/-- What is left of a sequence with a space, once the run before the first
space is dropped, starts with that space. -/
theorem dropWhile_ne_space (s : List Char) (h : ' ' ∈ s) :
    s.dropWhile (fun ch => ch != ' ') = ' ' :: (s.dropWhile fun ch => ch != ' ').tail := by
  induction s with
  | nil => simp at h
  | cons a t ih =>
    by_cases ha : a = ' '
    · subst ha; simp [List.dropWhile_cons]
    · have ht : ' ' ∈ t := by
        rcases List.mem_cons.mp h with h1 | h1
        · exact absurd h1.symm ha
        · exact h1
      simpa [List.dropWhile_cons, ha] using ih ht

/-- A parameter with a space is the text before its first space, that space,
and the text after it. -/
theorem eq_before_space_after (p : String) (h : hasSpace p) :
    p = beforeFirstSpace p ++ " " ++ afterFirstSpace p := by
  apply String.ext
  show p.data = (p.data.takeWhile fun ch => ch != ' ') ++ [' '] ++
    (p.data.dropWhile fun ch => ch != ' ').tail
  rw [List.append_assoc, List.singleton_append, ← dropWhile_ne_space p.data h,
    List.takeWhile_append_dropWhile]

/-- C9: `handleSITE` delegates to `handleCHMOD` exactly when the parameter has
a space and the text before its first space, upper-cased, is `CHMOD`.  Then it
is one call of `handleCHMOD` with the text after that first space, which is
the rest of the parameter as it stands, on the session as it is and on a world
to which nothing but that call has been added.  For every other parameter it
calls nothing and makes one write, the status line of
`StatusSyntaxErrorParameters`. -/
theorem handleSITE_dispatch (env : Env) (c : clientHandler) (w : World) :
    (hasSpace c.param ∧ ToUpper env.upperTable (beforeFirstSpace c.param) = "CHMOD" →
      handleSITE env c w =
        env.handleCHMOD (afterFirstSpace c.param) c
          (w.record (Event.callCHMOD (afterFirstSpace c.param))) ∧
      c.param = beforeFirstSpace c.param ++ " " ++ afterFirstSpace c.param ∧
      (w.record (Event.callCHMOD (afterFirstSpace c.param))).trace =
        w.trace ++ [Event.callCHMOD (afterFirstSpace c.param)] ∧
      (w.record (Event.callCHMOD (afterFirstSpace c.param))).writes = w.writes) ∧
    (¬ (hasSpace c.param ∧ ToUpper env.upperTable (beforeFirstSpace c.param) = "CHMOD") →
      (handleSITE env c w).c = c ∧
      (handleSITE env c w).err = w.nextWrite ∧
      (handleSITE env c w).w.trace = w.trace ++
        [Event.write c.conn
          (toString StatusSyntaxErrorParameters ++ " " ++ "Not understood SITE subcommand" ++
            "\r\n")
          w.nextWrite]) := by
  constructor
  · rintro ⟨hs, hu⟩
    refine ⟨?_, eq_before_space_after c.param hs, rfl, rfl⟩
    unfold handleSITE
    simp only [SplitN_space, hs, if_true, hu]
  · intro hn
    unfold handleSITE
    by_cases hs : hasSpace c.param
    · have hu : ¬ ToUpper env.upperTable (beforeFirstSpace c.param) = "CHMOD" :=
        fun hu => hn ⟨hs, hu⟩
      simp [SplitN_space, hs, hu]
    · simp [SplitN_space, hs]

/-- The witness of `handleSITE_dispatch`: the parameter `chmod 755 My  File`
is delegated with `755 My  File`; `CHMOD` alone and ` CHMOD 755 f` are not. -/
theorem handleSITE_dispatch_witness :
    (hasSpace "chmod 755 My  File" ∧
      ToUpper sampleEnv.upperTable (beforeFirstSpace "chmod 755 My  File") = "CHMOD") ∧
    (handleSITE sampleEnv { sampleNoTLS with param := "chmod 755 My  File" } sampleWorld).w.trace =
      [Event.callCHMOD "755 My  File", Event.write sampleConn "200 chmod 755 My  File\r\n" none] ∧
    (handleSITE sampleEnv { sampleNoTLS with param := "CHMOD" } sampleWorld).w.trace =
      [Event.write sampleConn "501 Not understood SITE subcommand\r\n" none] ∧
    (handleSITE sampleEnv { sampleNoTLS with param := " CHMOD 755 f" } sampleWorld).w.trace =
      [Event.write sampleConn "501 Not understood SITE subcommand\r\n" none] :=
  ⟨by decide,
   (congrArg (fun r => r.w.trace)
      ((handleSITE_dispatch sampleEnv { sampleNoTLS with param := "chmod 755 My  File" }
        sampleWorld).1 (by decide)).1).trans (by decide),
   ((handleSITE_dispatch sampleEnv { sampleNoTLS with param := "CHMOD" } sampleWorld).2
      (by decide)).2.2.trans (by decide),
   ((handleSITE_dispatch sampleEnv { sampleNoTLS with param := " CHMOD 755 f" } sampleWorld).2
      (by decide)).2.2.trans (by decide)⟩

/-- The run before the first space is not changed by what is put after a
space that follows it. -/
theorem takeWhile_before_space (s rest : List Char) :
    List.takeWhile (fun ch => ch != ' ')
        ((s.takeWhile fun ch => ch != ' ') ++ " ".data ++ rest) =
      s.takeWhile fun ch => ch != ' ' := by
  induction s with
  | nil => simp [List.takeWhile_cons]
  | cons a t ih =>
    by_cases ha : a = ' '
    · subst ha; simp [List.takeWhile_cons]
    · simpa [List.takeWhile_cons, ha] using ih

/-- C10: for every parameter, `handleOPTS` returns (the read of `args[0]` is
in range), makes one write and leaves the session as it was.  The status is
`StatusOK` exactly when the text before the first space of the parameter (all
of it when it has no space), upper-cased, is `UTF8`, and
`StatusSyntaxErrorParameters` otherwise; two parameters with the same text
before the first space get the same response. -/
theorem handleOPTS_response (env : Env) (c : clientHandler) (w : World) :
    handleOPTS env c w =
      some { err := w.nextWrite, c := c,
             w := { now := w.now, writes := w.writes.tail,
                    trace := w.trace ++
                      [Event.write c.conn
                        (toString (if ToUpper env.upperTable (beforeFirstSpace c.param) = "UTF8"
                                   then StatusOK else StatusSyntaxErrorParameters) ++ " " ++
                          (if ToUpper env.upperTable (beforeFirstSpace c.param) = "UTF8"
                           then "I'm in UTF8 only anyway" else "Don't know this option") ++
                          "\r\n")
                        w.nextWrite] } } ∧
    (¬ hasSpace c.param → beforeFirstSpace c.param = c.param) ∧
    (∀ rest : String,
      (handleOPTS env { c with param := beforeFirstSpace c.param ++ " " ++ rest } w).map
          (fun r => (r.err, r.w)) =
        (handleOPTS env c w).map (fun r => (r.err, r.w))) ∧
    isNegativeStatus StatusSyntaxErrorParameters = true ∧
    isNegativeStatus StatusOK = false := by
  have main : ∀ c : clientHandler, handleOPTS env c w =
      some { err := w.nextWrite, c := c,
             w := { now := w.now, writes := w.writes.tail,
                    trace := w.trace ++
                      [Event.write c.conn
                        (toString (if ToUpper env.upperTable (beforeFirstSpace c.param) = "UTF8"
                                   then StatusOK else StatusSyntaxErrorParameters) ++ " " ++
                          (if ToUpper env.upperTable (beforeFirstSpace c.param) = "UTF8"
                           then "I'm in UTF8 only anyway" else "Don't know this option") ++
                          "\r\n")
                        w.nextWrite] } } := by
    intro c
    have h0 : (SplitN c.param " " 2).head? = some (beforeFirstSpace c.param) := by
      rw [SplitN_space]
      by_cases hs : hasSpace c.param
      · simp [hs]
      · simp [hs, beforeFirstSpace_of_not_hasSpace c.param hs]
    unfold handleOPTS
    cases hsp : SplitN c.param " " 2 with
    | nil => rw [hsp] at h0; simp at h0
    | cons a rest =>
      rw [hsp] at h0
      simp only [List.head?_cons, Option.some.injEq] at h0
      subst h0
      by_cases hu : ToUpper env.upperTable (beforeFirstSpace c.param) = "UTF8"
      · simp only [hu, if_true]; rfl
      · simp only [hu, if_false]; rfl
  refine ⟨main c, beforeFirstSpace_of_not_hasSpace c.param, ?_, by decide, by decide⟩
  intro rest
  have hb : beforeFirstSpace (beforeFirstSpace c.param ++ " " ++ rest) =
      beforeFirstSpace c.param := by
    apply String.ext
    simp only [beforeFirstSpace, String.data_append]
    exact takeWhile_before_space c.param.data _
  rw [main, main c]
  simp [hb]

/-- The witness of `handleOPTS_response`: `utf8 on` is accepted, `UTF-8` is
not. -/
theorem handleOPTS_response_witness :
    (handleOPTS sampleEnv { sampleNoTLS with param := "utf8 on" } sampleWorld).map
        (fun r => r.w.trace) =
      some [Event.write sampleConn "200 I'm in UTF8 only anyway\r\n" none] ∧
    (handleOPTS sampleEnv { sampleNoTLS with param := "UTF-8" } sampleWorld).map
        (fun r => r.w.trace) =
      some [Event.write sampleConn "501 Don't know this option\r\n" none] :=
  ⟨(congrArg (Option.map fun r => r.w.trace)
      (handleOPTS_response sampleEnv { sampleNoTLS with param := "utf8 on" } sampleWorld).1).trans
      (by decide),
   (congrArg (Option.map fun r => r.w.trace)
      (handleOPTS_response sampleEnv { sampleNoTLS with param := "UTF-8" } sampleWorld).1).trans
      (by decide)⟩

/-- The result of `handleSTATServer` when every write succeeds: no error, the
session as it was, and five lines on the record. -/
theorem handleSTATServer_ok (c : clientHandler) (w : World) (hw : w.allWritesSucceed) :
    (handleSTATServer c w).err = none ∧
    (handleSTATServer c w).c = c ∧
    (handleSTATServer c w).w.trace = w.trace ++
      [wrote c.conn (toString StatusSystemStatus ++ "- FTP server status:"),
       wrote c.conn
         ("Connected to " ++ c.server.settings.ListenAddr ++ " from " ++ c.conn.RemoteAddr ++
           " for " ++
           DurationString
             (Sub w.now c.connectedAt - Int.tmod (Sub w.now c.connectedAt) Second)),
       wrote c.conn
         (if c.user ≠ "" then "Logged in as " ++ c.user else "Not logged in yet"),
       wrote c.conn "ftpserver - golang FTP server",
       wrote c.conn (toString StatusSystemStatus ++ " " ++ "End")] := by
  have h1 := hw.nextWrite
  have hw1 := hw.writeLine c (toString StatusSystemStatus ++ "- FTP server status:")
  have h2 := hw1.nextWrite
  have hw2 := hw1.writeLine c
    ("Connected to " ++ c.server.settings.ListenAddr ++ " from " ++ c.conn.RemoteAddr ++
      " for " ++
      DurationString (Sub w.now c.connectedAt - Int.tmod (Sub w.now c.connectedAt) Second))
  have h3 := hw2.nextWrite
  have hw3 := hw2.writeLine c
    (if c.user ≠ "" then "Logged in as " ++ c.user else "Not logged in yet")
  have h4 := hw3.nextWrite
  have hw4 := hw3.writeLine c "ftpserver - golang FTP server"
  have h5 := hw4.nextWrite
  unfold handleSTATServer
  by_cases hu : c.user = ""
  · simp only [hu, ne_eq, not_true_eq_false, if_false] at h3 h4 h5 ⊢
    simp only [writeLine_fst, writeLine_now, h1, h2, h3, h4, h5, writeMessage_fst,
      writeMessage_trace, writeLine_trace, wrote]
    simp
  · simp only [hu, ne_eq, not_false_eq_true, if_true] at h3 h4 h5 ⊢
    simp only [writeLine_fst, writeLine_now, h1, h2, h3, h4, h5, writeMessage_fst,
      writeMessage_trace, writeLine_trace, wrote]
    simp

/-- The result of `handleFEAT` when every write succeeds: no error, the
session as it was, and on the record the opening line, one line per feature
and the closing line. -/
theorem handleFEAT_ok (c : clientHandler) (w : World) (hw : w.allWritesSucceed) :
    (handleFEAT c w).err = none ∧
    (handleFEAT c w).c = c ∧
    (handleFEAT c w).w.trace = w.trace ++
      (wrote c.conn (toString StatusSystemStatus ++ "- These are my features") ::
        ((features c.server.settings).map fun f => wrote c.conn (" " ++ f)) ++
        [wrote c.conn (toString StatusSystemStatus ++ " " ++ "End")]) := by
  have h1 := hw.nextWrite
  have h2 := writeFeatures_ok c (features c.server.settings) _
    (hw.writeLine c (toString StatusSystemStatus ++ "- These are my features"))
  have h3 := h2.2.1.nextWrite
  unfold handleFEAT
  simp only [writeLine_fst, h1, h2.1, writeMessage_trace, h2.2.2, writeLine_trace, h3,
    writeMessage_fst, wrote]
  simp
/-- The events added to a record that has been extended. -/
theorem eventsAfter_of_trace {w : World} {r : World} {es : List Event}
    (h : r.trace = w.trace ++ es) : eventsAfter w.trace.length r = es := by
  simp [eventsAfter, h]

/-- The world that `handleSTATServer` leaves when every write succeeds is the
one left by its last call, `writeMessage(StatusSystemStatus, "End")`. -/
theorem handleSTATServer_closing (c : clientHandler) (w : World) (hw : w.allWritesSucceed) :
    ∃ w1 : World, (handleSTATServer c w).w = (writeMessage c w1 StatusSystemStatus "End").2 := by
  have h1 := hw.nextWrite
  have hw1 := hw.writeLine c (toString StatusSystemStatus ++ "- FTP server status:")
  have h2 := hw1.nextWrite
  have hw2 := hw1.writeLine c
    ("Connected to " ++ c.server.settings.ListenAddr ++ " from " ++ c.conn.RemoteAddr ++
      " for " ++
      DurationString (Sub w.now c.connectedAt - Int.tmod (Sub w.now c.connectedAt) Second))
  have h3 := hw2.nextWrite
  have hw3 := hw2.writeLine c
    (if c.user ≠ "" then "Logged in as " ++ c.user else "Not logged in yet")
  have h4 := hw3.nextWrite
  unfold handleSTATServer
  by_cases hu : c.user = ""
  · simp only [hu, ne_eq, not_true_eq_false, if_false] at h3 h4 ⊢
    simp only [writeLine_fst, writeLine_now, h1, h2, h3, h4]
    exact ⟨_, rfl⟩
  · simp only [hu, ne_eq, not_false_eq_true, if_true] at h3 h4 ⊢
    simp only [writeLine_fst, writeLine_now, h1, h2, h3, h4]
    exact ⟨_, rfl⟩

/-- The world that `handleFEAT` leaves when every write succeeds is the one
left by its last call, `writeMessage(StatusSystemStatus, "End")`. -/
theorem handleFEAT_closing (c : clientHandler) (w : World) (hw : w.allWritesSucceed) :
    ∃ w1 : World, (handleFEAT c w).w = (writeMessage c w1 StatusSystemStatus "End").2 := by
  have h1 := hw.nextWrite
  have h2 := writeFeatures_ok c (features c.server.settings) _
    (hw.writeLine c (toString StatusSystemStatus ++ "- These are my features"))
  unfold handleFEAT
  simp only [writeLine_fst, h1, h2.1]
  exact ⟨_, rfl⟩

/-- C11: when every write succeeds, the first line that `handleSTATServer`
writes, and the first that `handleFEAT` writes, is a status code with `-` right
after it; the last line is the status line `<code> End`, left by
`writeMessage`; and the code of both lines is `StatusSystemStatus`. -/
theorem multiline_open_close_code (c : clientHandler) (w : World) (hw : w.allWritesSucceed) :
    ((eventsAfter w.trace.length (handleSTATServer c w).w).head? =
        some (wrote c.conn (toString StatusSystemStatus ++ "-" ++ " FTP server status:")) ∧
      (eventsAfter w.trace.length (handleSTATServer c w).w).getLast? =
        some (wrote c.conn (toString StatusSystemStatus ++ " " ++ "End")) ∧
      ∃ w1 : World,
        (handleSTATServer c w).w = (writeMessage c w1 StatusSystemStatus "End").2) ∧
    ((eventsAfter w.trace.length (handleFEAT c w).w).head? =
        some (wrote c.conn (toString StatusSystemStatus ++ "-" ++ " These are my features")) ∧
      (eventsAfter w.trace.length (handleFEAT c w).w).getLast? =
        some (wrote c.conn (toString StatusSystemStatus ++ " " ++ "End")) ∧
      ∃ w1 : World, (handleFEAT c w).w = (writeMessage c w1 StatusSystemStatus "End").2) := by
  have hdash1 : toString StatusSystemStatus ++ "-" ++ " FTP server status:" =
      toString StatusSystemStatus ++ "- FTP server status:" := by decide
  have hdash2 : toString StatusSystemStatus ++ "-" ++ " These are my features" =
      toString StatusSystemStatus ++ "- These are my features" := by decide
  refine ⟨⟨?_, ?_, handleSTATServer_closing c w hw⟩, ⟨?_, ?_, handleFEAT_closing c w hw⟩⟩
  · rw [eventsAfter_of_trace (handleSTATServer_ok c w hw).2.2, hdash1]; rfl
  · rw [eventsAfter_of_trace (handleSTATServer_ok c w hw).2.2]; rfl
  · rw [eventsAfter_of_trace (handleFEAT_ok c w hw).2.2, hdash2]; rfl
  · rw [eventsAfter_of_trace (handleFEAT_ok c w hw).2.2, List.getLast?_concat]

/-- The witness of `multiline_open_close_code`: the session `sampleNoTLS`. -/
theorem multiline_open_close_code_witness :
    sampleWorld.allWritesSucceed ∧
    (eventsAfter 0 (handleSTATServer sampleNoTLS sampleWorld).w).head? =
      some (wrote sampleConn "211- FTP server status:") ∧
    (eventsAfter 0 (handleSTATServer sampleNoTLS sampleWorld).w).getLast? =
      some (wrote sampleConn "211 End") ∧
    (eventsAfter 0 (handleFEAT sampleNoTLS sampleWorld).w).head? =
      some (wrote sampleConn "211- These are my features") ∧
    (eventsAfter 0 (handleFEAT sampleNoTLS sampleWorld).w).getLast? =
      some (wrote sampleConn "211 End") :=
  have h := multiline_open_close_code sampleNoTLS sampleWorld (by decide)
  ⟨by decide, h.1.1.trans (by decide), h.1.2.1.trans (by decide), h.2.1.trans (by decide),
    h.2.2.1.trans (by decide)⟩
/-- C12, as stated, fails: with every write succeeding, the three lines that
`handleSTATServer` writes between its opening and its closing line for the
session `sampleNoTLS` do not begin with a space. -/
theorem handleSTATServer_middle_lines_no_space :
    sampleWorld.allWritesSucceed ∧
    linesOf (eventsAfter 0 (handleSTATServer sampleNoTLS sampleWorld).w) =
      ["211- FTP server status:\r\n",
       "Connected to 0.0.0.0:2121 from 192.0.2.7:50312 for 1m1s\r\n",
       "Not logged in yet\r\n",
       "ftpserver - golang FTP server\r\n",
       "211 End\r\n"] ∧
    hasLeadingSpace "Connected to 0.0.0.0:2121 from 192.0.2.7:50312 for 1m1s\r\n" = false ∧
    hasLeadingSpace "Not logged in yet\r\n" = false ∧
    hasLeadingSpace "ftpserver - golang FTP server\r\n" = false := by
  decide

/-- A line whose first character is not a space has no leading space. -/
theorem hasLeadingSpace_eq_false (s : String) (ch : Char) (rest : List Char)
    (h : s.data = ch :: rest) (hch : ch ≠ ' ') : hasLeadingSpace s = false := by
  unfold hasLeadingSpace
  rw [h]
  split
  · rename_i heq
    simp only [List.cons.injEq] at heq
    exact absurd heq.1 hch
  · rfl

/-- A line whose first character is not a digit has no code in front. -/
theorem hasCodePrefix_eq_false (s : String) (ch : Char) (rest : List Char)
    (h : s.data = ch :: rest) (hch : ch.isDigit = false) : hasCodePrefix s = false := by
  unfold hasCodePrefix
  rw [h]
  split
  · rename_i heq
    simp only [List.cons.injEq] at heq
    rw [← heq.1, hch]
    rfl
  · rfl

/-- A line whose first character is not a digit is not a status line. -/
theorem isStatusLine_eq_false (s : String) (ch : Char) (rest : List Char)
    (h : s.data = ch :: rest) (hch : ch.isDigit = false) : isStatusLine s = false := by
  unfold isStatusLine
  rw [h]
  split
  · rename_i heq
    simp only [List.cons.injEq] at heq
    rw [← heq.1, hch]
    rfl
  · rfl

/-- The lines of two stretches of the record, one after the other. -/
theorem linesOf_append (a b : List Event) : linesOf (a ++ b) = linesOf a ++ linesOf b := by
  simp [linesOf]

/-- The lines of the feature lines written with success. -/
theorem linesOf_feature_lines (conn : Conn) (fs : List String) :
    linesOf (fs.map fun f => wrote conn (" " ++ f)) = fs.map fun f => " " ++ f ++ "\r\n" := by
  induction fs with
  | nil => rfl
  | cons f fs ih =>
    show (" " ++ f ++ "\r\n") :: linesOf (fs.map fun f => wrote conn (" " ++ f)) = _
    rw [ih]
    rfl

/-- The lines that `handleSTATServer` writes when every write succeeds. -/
theorem handleSTATServer_lines (c : clientHandler) (w : World) (hw : w.allWritesSucceed) :
    linesOf (eventsAfter w.trace.length (handleSTATServer c w).w) =
      [toString StatusSystemStatus ++ "- FTP server status:" ++ "\r\n",
       "Connected to " ++ c.server.settings.ListenAddr ++ " from " ++ c.conn.RemoteAddr ++
         " for " ++
         DurationString (Sub w.now c.connectedAt - Int.tmod (Sub w.now c.connectedAt) Second) ++
         "\r\n",
       (if c.user ≠ "" then "Logged in as " ++ c.user else "Not logged in yet") ++ "\r\n",
       "ftpserver - golang FTP server" ++ "\r\n",
       toString StatusSystemStatus ++ " " ++ "End" ++ "\r\n"] := by
  rw [eventsAfter_of_trace (handleSTATServer_ok c w hw).2.2]
  rfl

/-- The lines that `handleFEAT` writes when every write succeeds. -/
theorem handleFEAT_lines (c : clientHandler) (w : World) (hw : w.allWritesSucceed) :
    linesOf (eventsAfter w.trace.length (handleFEAT c w).w) =
      (toString StatusSystemStatus ++ "- These are my features" ++ "\r\n") ::
        (((features c.server.settings).map fun f => " " ++ f ++ "\r\n") ++
          [toString StatusSystemStatus ++ " " ++ "End" ++ "\r\n"]) := by
  rw [eventsAfter_of_trace (handleFEAT_ok c w hw).2.2, linesOf_append]
  show _ :: linesOf ((features c.server.settings).map fun f => wrote c.conn (" " ++ f)) ++ _ = _
  rw [linesOf_feature_lines]
  rfl

/-- A line whose first character is not a space: it has a first character,
and that character is not a space. -/
theorem firstChar_ne_space (s : String) (ch : Char) (rest : List Char)
    (h : s.data = ch :: rest) (hch : ch ≠ ' ') :
    ∃ ch0 : Char, s.data.head? = some ch0 ∧ ch0 ≠ ' ' :=
  ⟨ch, by rw [h]; rfl, hch⟩

/-- C12, amended: when every write succeeds, every line that `handleFEAT`
writes strictly between its opening and its closing line begins with one
space, and only one, and has no status code in front.  The lines that
`handleSTATServer` writes between its opening and its closing line are the
connection line, the line of the login state and the line of the server
identity, as the source gives them: each has no status code in front either,
and its first character is not a space. -/
theorem multiline_middle_lines (c : clientHandler) (w : World) (hw : w.allWritesSucceed) :
    (∀ l ∈ (linesOf (eventsAfter w.trace.length (handleFEAT c w).w)).tail.dropLast,
      hasLeadingSpace l = true ∧ hasCodePrefix l = false) ∧
    (linesOf (eventsAfter w.trace.length (handleSTATServer c w).w)).tail.dropLast =
      ["Connected to " ++ c.server.settings.ListenAddr ++ " from " ++ c.conn.RemoteAddr ++
         " for " ++
         DurationString (Sub w.now c.connectedAt - Int.tmod (Sub w.now c.connectedAt) Second) ++
         "\r\n",
       (if c.user ≠ "" then "Logged in as " ++ c.user else "Not logged in yet") ++ "\r\n",
       "ftpserver - golang FTP server" ++ "\r\n"] ∧
    (∀ l ∈ (linesOf (eventsAfter w.trace.length (handleSTATServer c w).w)).tail.dropLast,
      (∃ ch : Char, l.data.head? = some ch ∧ ch ≠ ' ') ∧
      hasLeadingSpace l = false ∧ hasCodePrefix l = false) := by
  refine ⟨?_, ?_, ?_⟩
  · rw [handleFEAT_lines c w hw]
    simp only [List.tail_cons, List.dropLast_concat]
    cases hD : c.server.settings.DisableMLSD <;> cases hT : c.server.settings.DisableMLST <;>
      simp only [features, hD, hT] <;> decide
  · rw [handleSTATServer_lines c w hw]
    rfl
  · rw [handleSTATServer_lines c w hw]
    simp only [List.tail_cons, List.dropLast_cons₂, List.dropLast_single, List.mem_cons,
      List.mem_singleton, List.not_mem_nil, or_false]
    rintro l (rfl | rfl | rfl)
    · exact ⟨firstChar_ne_space _ 'C' _ (by simp; rfl) (by decide),
        hasLeadingSpace_eq_false _ 'C' _ (by simp; rfl) (by decide),
        hasCodePrefix_eq_false _ 'C' _ (by simp; rfl) (by decide)⟩
    · by_cases hu : c.user = ""
      · simp only [hu, ne_eq, not_true_eq_false, if_false]
        exact ⟨⟨'N', rfl, by decide⟩, by decide, by decide⟩
      · simp only [hu, ne_eq, not_false_eq_true, if_true]
        exact ⟨firstChar_ne_space _ 'L' _ (by simp; rfl) (by decide),
          hasLeadingSpace_eq_false _ 'L' _ (by simp; rfl) (by decide),
          hasCodePrefix_eq_false _ 'L' _ (by simp; rfl) (by decide)⟩
    · exact ⟨⟨'f', rfl, by decide⟩, by decide, by decide⟩

/-- The witness of `multiline_middle_lines`: the session `sampleNoTLS`. -/
theorem multiline_middle_lines_witness :
    sampleWorld.allWritesSucceed ∧
    hasLeadingSpace " MLSD\r\n" = true ∧ hasCodePrefix " MLSD\r\n" = false ∧
    (linesOf (eventsAfter 0 (handleSTATServer sampleNoTLS sampleWorld).w)).tail.dropLast =
      ["Connected to 0.0.0.0:2121 from 192.0.2.7:50312 for 1m1s\r\n",
       "Not logged in yet\r\n",
       "ftpserver - golang FTP server\r\n"] ∧
    (∃ ch : Char, "Not logged in yet\r\n".data.head? = some ch ∧ ch ≠ ' ') ∧
    hasCodePrefix "Not logged in yet\r\n" = false :=
  have h := multiline_middle_lines sampleNoTLS sampleWorld (by decide)
  ⟨by decide, (h.1 " MLSD\r\n" (by decide)).1, (h.1 " MLSD\r\n" (by decide)).2,
    h.2.1.trans (by decide),
    (h.2.2 "Not logged in yet\r\n" (by decide)).1,
    (h.2.2 "Not logged in yet\r\n" (by decide)).2.2⟩

/-- C13, as stated, fails: for the session `sampleNoTLS` (no user, no
parameter, connected at time 0) and a clock 61 seconds later, with every write
succeeding, the line of `handleSTAT` that reports the connection ends in
`1m1s`, and no line it writes holds the text `0:01:01`. -/
theorem handleSTAT_61s_not_clock_format :
    ({ sampleWorld with now := 61000000000 } : World).now - sampleNoTLS.connectedAt =
      61 * Second ∧
    sampleNoTLS.user = "" ∧ sampleNoTLS.param = "" ∧
    ({ sampleWorld with now := 61000000000 } : World).allWritesSucceed ∧
    linesOf (eventsAfter 0
        (handleSTAT sampleEnv sampleNoTLS { sampleWorld with now := 61000000000 }).w) =
      ["211- FTP server status:\r\n",
       "Connected to 0.0.0.0:2121 from 192.0.2.7:50312 for 1m1s\r\n",
       "Not logged in yet\r\n",
       "ftpserver - golang FTP server\r\n",
       "211 End\r\n"] ∧
    ∀ l ∈ linesOf (eventsAfter 0
        (handleSTAT sampleEnv sampleNoTLS { sampleWorld with now := 61000000000 }).w),
      ¬ ("0:01:01".data <:+: l.data) := by
  decide

/-- C13, amended: for a session whose `connectedAt` is 61 seconds before the
clock and whose user is empty, `handleSTAT` with an empty parameter and every
write succeeding writes, in order, the opening line of status
`StatusSystemStatus` (211), the line `Connected to ... for 1m1s`, the line
`Not logged in yet`, the line of the server identity and the closing line
`211 End`, and returns no error. -/
theorem handleSTAT_61s (env : Env) (c : clientHandler) (w : World)
    (hp : c.param = "") (hu : c.user = "") (hd : w.now - c.connectedAt = 61 * Second)
    (hw : w.allWritesSucceed) :
    linesOf (eventsAfter w.trace.length (handleSTAT env c w).w) =
      [toString StatusSystemStatus ++ "- FTP server status:" ++ "\r\n",
       "Connected to " ++ c.server.settings.ListenAddr ++ " from " ++ c.conn.RemoteAddr ++
         " for " ++ "1m1s" ++ "\r\n",
       "Not logged in yet" ++ "\r\n",
       "ftpserver - golang FTP server" ++ "\r\n",
       toString StatusSystemStatus ++ " " ++ "End" ++ "\r\n"] ∧
    StatusSystemStatus = 211 ∧
    (handleSTAT env c w).err = none := by
  have hEq : handleSTAT env c w = handleSTATServer c w := by simp [handleSTAT, hp]
  have hSub : Sub w.now c.connectedAt = 61000000000 := by
    unfold Sub
    rw [hd]
    decide
  have hDur : DurationString ((61000000000 : Int) - Int.tmod 61000000000 Second) = "1m1s" := by
    decide
  rw [hEq, handleSTATServer_lines c w hw, hSub, hDur]
  refine ⟨?_, rfl, (handleSTATServer_ok c w hw).1⟩
  simp [hu]

/-- The witness of `handleSTAT_61s`: the session `sampleNoTLS`, 61 seconds
after its connection. -/
theorem handleSTAT_61s_witness :
    sampleNoTLS.param = "" ∧ sampleNoTLS.user = "" ∧
    ({ sampleWorld with now := 61000000000 } : World).now - sampleNoTLS.connectedAt =
      61 * Second ∧
    ({ sampleWorld with now := 61000000000 } : World).allWritesSucceed ∧
    (handleSTAT sampleEnv sampleNoTLS { sampleWorld with now := 61000000000 }).err = none :=
  ⟨rfl, rfl, by decide, by decide,
    (handleSTAT_61s sampleEnv sampleNoTLS { sampleWorld with now := 61000000000 } rfl rfl
      (by decide) (by decide)).2.2⟩
/-- The remainder of Go, `d % time.Second`: it has the sign of `d` and is
smaller than one second in absolute value. -/
theorem tmod_Second_bounds (d : Int) :
    (0 ≤ d → 0 ≤ d.tmod Second ∧ d.tmod Second < Second) ∧
    (d < 0 → -Second < d.tmod Second ∧ d.tmod Second ≤ 0) := by
  constructor
  · intro hd
    exact ⟨Int.tmod_nonneg _ hd, Int.tmod_lt_of_pos _ (by decide)⟩
  · intro hd
    cases d with
    | ofNat m => exact absurd hd (by simp)
    | negSucc m =>
      have h : (Int.negSucc m).tmod Second = -(((m + 1) % 1000000000 : Nat) : Int) := rfl
      rw [h]
      unfold Second
      omega

/-- C14: the duration that `handleSTATServer` reports, for `d` the duration
`time.Now().UTC().Sub(c.connectedAt)`, is `d - d % time.Second`: it is what the
connection line shows, it is a multiple of one second, it differs from `d` by
less than one second, and for `d ≥ 0` it is the greatest multiple of one
second that is at most `d`.  The duration `d` is the difference of the two
times whenever that difference fits a `Duration`. -/
theorem handleSTATServer_duration_truncated (c : clientHandler) (w : World) :
    (w.allWritesSucceed →
      (eventsAfter w.trace.length (handleSTATServer c w).w)[1]? =
        some (wrote c.conn
          ("Connected to " ++ c.server.settings.ListenAddr ++ " from " ++ c.conn.RemoteAddr ++
            " for " ++
            DurationString
              (Sub w.now c.connectedAt - (Sub w.now c.connectedAt).tmod Second)))) ∧
    (∃ k : Int,
      Sub w.now c.connectedAt - (Sub w.now c.connectedAt).tmod Second = k * Second) ∧
    |Sub w.now c.connectedAt -
        (Sub w.now c.connectedAt - (Sub w.now c.connectedAt).tmod Second)| < Second ∧
    (0 ≤ Sub w.now c.connectedAt →
      Sub w.now c.connectedAt - (Sub w.now c.connectedAt).tmod Second ≤
          Sub w.now c.connectedAt ∧
      ∀ m : Int, m * Second ≤ Sub w.now c.connectedAt →
        m * Second ≤ Sub w.now c.connectedAt - (Sub w.now c.connectedAt).tmod Second) ∧
    (minDuration ≤ w.now - c.connectedAt → w.now - c.connectedAt ≤ maxDuration →
      Sub w.now c.connectedAt = w.now - c.connectedAt) := by
  generalize hd : Sub w.now c.connectedAt = d
  have hb := tmod_Second_bounds d
  have hq : d.tmod Second + Second * d.tdiv Second = d := Int.tmod_add_tdiv d Second
  refine ⟨?_, ⟨d.tdiv Second, ?_⟩, ?_, ?_, ?_⟩
  · intro hw
    rw [eventsAfter_of_trace (handleSTATServer_ok c w hw).2.2, hd]
    rfl
  · rw [mul_comm]
    omega
  · rw [abs_lt]
    rcases lt_or_le d 0 with h | h
    · have := hb.2 h
      constructor <;> omega
    · have := hb.1 h
      constructor <;> omega
  · intro h
    have h1 := hb.1 h
    refine ⟨by omega, ?_⟩
    intro m hm
    generalize d.tdiv Second = q at hq
    generalize d.tmod Second = t at hq h1 ⊢
    unfold Second at *
    omega
  · intro h1 h2
    rw [← hd]
    unfold Sub
    rw [if_neg (by omega), if_neg (by omega)]

/-- The witness of `handleSTATServer_duration_truncated`: 61.5 seconds after
the connection the line shows 61 seconds. -/
theorem handleSTATServer_duration_truncated_witness :
    sampleWorld.allWritesSucceed ∧
    Sub sampleWorld.now sampleNoTLS.connectedAt = 61500000000 ∧
    (eventsAfter 0 (handleSTATServer sampleNoTLS sampleWorld).w)[1]? =
      some (wrote sampleConn "Connected to 0.0.0.0:2121 from 192.0.2.7:50312 for 1m1s") :=
  ⟨by decide, by decide,
    ((handleSTATServer_duration_truncated sampleNoTLS sampleWorld).1 (by decide)).trans
      (by decide)⟩
/-- A line made of one of the status codes of this file, a space and a text
is a status line. -/
theorem isStatusLine_status (code : Nat) (text : String) (h : code ∈ statusCodes) :
    isStatusLine (toString code ++ " " ++ text ++ "\r\n") = true := by
  have key : ∀ a b c : Char, a.isDigit = true → b.isDigit = true → c.isDigit = true →
      toString code = String.mk [a, b, c] →
      isStatusLine (toString code ++ " " ++ text ++ "\r\n") = true := by
    intro a b c ha hb hc hs
    unfold isStatusLine
    have hdata : (toString code ++ " " ++ text ++ "\r\n").data =
        a :: b :: c :: ' ' :: (text.data ++ "\r\n".data) := by
      rw [hs]
      simp [String.data_append]
    rw [hdata]
    simp [ha, hb, hc]
  simp only [statusCodes, List.mem_cons, List.mem_singleton, List.not_mem_nil, or_false] at h
  rcases h with rfl | rfl | rfl | rfl | rfl | rfl | rfl
  · exact key '2' '0' '0' (by decide) (by decide) (by decide) (by decide)
  · exact key '2' '1' '1' (by decide) (by decide) (by decide) (by decide)
  · exact key '2' '1' '5' (by decide) (by decide) (by decide) (by decide)
  · exact key '2' '2' '1' (by decide) (by decide) (by decide) (by decide)
  · exact key '2' '3' '4' (by decide) (by decide) (by decide) (by decide)
  · exact key '5' '0' '1' (by decide) (by decide) (by decide) (by decide)
  · exact key '5' '5' '0' (by decide) (by decide) (by decide) (by decide)

/-- One logical response, from the shape of the record: no error, and among
the events added one write of a status line, with no status line written
before it and nothing written after it. -/
theorem oneLogicalResponse_of (n : Nat) (r : Result) (pre post : List Event) (conn : Conn)
    (line : String) (o : Option GoError) (he : r.err = none)
    (hev : eventsAfter n r.w = pre ++ Event.write conn line o :: post)
    (hpre : ∀ l ∈ linesOf pre, isStatusLine l = false) (hline : isStatusLine line = true)
    (hpost : linesOf post = []) : oneLogicalResponse n r := by
  have hl : linesOf (eventsAfter n r.w) = linesOf pre ++ [line] := by
    rw [hev, linesOf_append]
    show linesOf pre ++ line :: linesOf post = _
    rw [hpost]
  refine ⟨he, ?_, ?_⟩
  · rw [hl, List.filter_append]
    have : List.filter isStatusLine (linesOf pre) = [] := by
      rw [List.filter_eq_nil_iff]
      intro l hlm
      simp [hpre l hlm]
    rw [this]
    simp [hline]
  · rw [hl, List.getLast?_concat]
    simp [hline]

/-- A handler that makes one write of a status line gives one logical
response when the write succeeds. -/
theorem singleStatusWrite.oneLogicalResponse {c : clientHandler} {w : World} {r : Result}
    (h : singleStatusWrite c w r) (hw : w.allWritesSucceed) :
    Ftpserver.oneLogicalResponse w.trace.length r := by
  obtain ⟨code, text, hc, he, hev⟩ := h
  exact oneLogicalResponse_of _ r [] [] c.conn _ w.nextWrite (he.trans hw.nextWrite)
    (by rw [hev]; rfl) (by intro l hl; cases hl) (isStatusLine_status code text hc) rfl

/-- The handler `handlePROT` makes one write of a status line. -/
theorem handlePROT_single (c : clientHandler) (w : World) :
    singleStatusWrite c w (handlePROT c w) :=
  ⟨StatusOK, "OK", by decide, rfl, by simp [handlePROT, eventsAfter]⟩

/-- The handler `handlePBSZ` makes one write of a status line. -/
theorem handlePBSZ_single (c : clientHandler) (w : World) :
    singleStatusWrite c w (handlePBSZ c w) :=
  ⟨StatusOK, "Whatever", by decide, rfl, by simp [handlePBSZ, eventsAfter]⟩

/-- The handler `handleSYST` makes one write of a status line. -/
theorem handleSYST_single (c : clientHandler) (w : World) :
    singleStatusWrite c w (handleSYST c w) :=
  ⟨StatusSystemType, "UNIX Type: L8", by decide, rfl, by simp [handleSYST, eventsAfter]⟩

/-- The handler `handleNOOP` makes one write of a status line. -/
theorem handleNOOP_single (c : clientHandler) (w : World) :
    singleStatusWrite c w (handleNOOP c w) :=
  ⟨StatusOK, "OK", by decide, rfl, by simp [handleNOOP, eventsAfter]⟩

/-- The handler `handleTYPE` makes one write of a status line, and leaves the
session as it was. -/
theorem handleTYPE_single (c : clientHandler) (w : World) :
    singleStatusWrite c w (handleTYPE c w) ∧ (handleTYPE c w).c = c := by
  refine ⟨?_, by unfold handleTYPE; split_ifs <;> rfl⟩
  unfold handleTYPE
  by_cases hI : c.param = "I"
  · simp only [hI, if_true]
    exact ⟨StatusOK, "Type set to binary", by decide, rfl, by simp [eventsAfter]⟩
  · by_cases hA : c.param = "A"
    · simp only [hI, hA, if_true, if_false]
      exact ⟨StatusOK, "WARNING: ASCII isn't correctly supported", by decide, rfl,
        by simp [eventsAfter]⟩
    · simp only [hI, hA, if_false]
      exact ⟨StatusSyntaxErrorParameters, "Not understood", by decide, rfl,
        by simp [eventsAfter]⟩

/-- The handler `handleOPTS` returns, has made one write of a status line, and
leaves the session as it was. -/
theorem handleOPTS_single (env : Env) (c : clientHandler) (w : World) :
    ∃ r : Result, handleOPTS env c w = some r ∧ singleStatusWrite c w r ∧ r.c = c := by
  unfold handleOPTS
  cases hsp : SplitN c.param " " 2 with
  | nil =>
    exfalso
    rw [SplitN_space] at hsp
    by_cases hs : hasSpace c.param <;> simp [hs] at hsp
  | cons a rest =>
    by_cases hu : ToUpper env.upperTable a = "UTF8"
    · simp only [hu, if_true]
      exact ⟨_, rfl, ⟨StatusOK, "I'm in UTF8 only anyway", by decide, rfl,
        by simp [eventsAfter]⟩, rfl⟩
    · simp only [hu, if_false]
      exact ⟨_, rfl, ⟨StatusSyntaxErrorParameters, "Don't know this option", by decide, rfl,
        by simp [eventsAfter]⟩, rfl⟩

/-- The handler `handleSITE`, for a parameter that is not a `CHMOD`
subcommand, makes one write of a status line and leaves the session as it
was. -/
theorem handleSITE_single (env : Env) (c : clientHandler) (w : World)
    (h : ¬ (hasSpace c.param ∧ ToUpper env.upperTable (beforeFirstSpace c.param) = "CHMOD")) :
    singleStatusWrite c w (handleSITE env c w) ∧ (handleSITE env c w).c = c := by
  have key : handleSITE env c w =
      { err := (writeMessage c w StatusSyntaxErrorParameters
                  "Not understood SITE subcommand").1,
        c := c,
        w := (writeMessage c w StatusSyntaxErrorParameters
                "Not understood SITE subcommand").2 } := by
    unfold handleSITE
    by_cases hs : hasSpace c.param
    · have hu : ¬ ToUpper env.upperTable (beforeFirstSpace c.param) = "CHMOD" :=
        fun hu => h ⟨hs, hu⟩
      simp [SplitN_space, hs, hu]
    · simp [SplitN_space, hs]
  rw [key]
  exact ⟨⟨StatusSyntaxErrorParameters, "Not understood SITE subcommand", by decide, rfl,
    by simp [eventsAfter]⟩, rfl⟩
/-- The result of `handleAUTH` when `GetTLSConfig` fails. -/
theorem handleAUTH_err (c : clientHandler) (w : World) (e : GoError)
    (h : c.server.driver.GetTLSConfig = .error e) :
    handleAUTH c w =
      { err := w.nextWrite, c := c,
        w := (writeMessage c (w.record Event.getTLSConfig) StatusActionNotTaken
                ("Cannot get a TLS config: " ++ e.msg)).2 } := by
  unfold handleAUTH
  simp only [h]
  rfl

/-- The result of `handleQUIT` when the write succeeds. -/
theorem handleQUIT_ok (c : clientHandler) (w : World) (hw : w.nextWrite = none) :
    handleQUIT c w =
      { err := none, c := c,
        w := Close c ((writeMessage c w StatusClosingControlConn "Goodbye").2.record
                (Event.debug "Clean disconnect")) } := by
  unfold handleQUIT
  simp only [writeMessage_fst, hw]

/-- The result of `handleQUIT` when the write fails. -/
theorem handleQUIT_err (c : clientHandler) (w : World) (e : GoError)
    (hw : w.nextWrite = some e) :
    handleQUIT c w =
      { err := some e, c := c,
        w := (writeMessage c w StatusClosingControlConn "Goodbye").2 } := by
  unfold handleQUIT
  simp only [writeMessage_fst, hw]

/-- A feature line is not a status line. -/
theorem isStatusLine_feature_line (f : String) : isStatusLine (" " ++ f ++ "\r\n") = false :=
  isStatusLine_eq_false _ ' ' (f.data ++ "\r\n".data) (by simp [String.data_append])
    (by decide)

/-- C15: when every write succeeds, each handler of this file that does not
delegate gives one logical response: it returns no error, exactly one of the
lines it writes is a status line, and that line is the last line it writes.
`handleOPTS` returns for every parameter; `handleSITE` is taken on the
parameters that are not a `CHMOD` subcommand. -/
theorem one_logical_response (env : Env) (c : clientHandler) (w : World)
    (hw : w.allWritesSucceed) :
    oneLogicalResponse w.trace.length (handleAUTH c w) ∧
    oneLogicalResponse w.trace.length (handlePROT c w) ∧
    oneLogicalResponse w.trace.length (handlePBSZ c w) ∧
    oneLogicalResponse w.trace.length (handleSYST c w) ∧
    oneLogicalResponse w.trace.length (handleNOOP c w) ∧
    (∃ r : Result, handleOPTS env c w = some r ∧ oneLogicalResponse w.trace.length r) ∧
    oneLogicalResponse w.trace.length (handleTYPE c w) ∧
    oneLogicalResponse w.trace.length (handleQUIT c w) ∧
    oneLogicalResponse w.trace.length (handleFEAT c w) ∧
    oneLogicalResponse w.trace.length (handleSTATServer c w) ∧
    (¬ (hasSpace c.param ∧ ToUpper env.upperTable (beforeFirstSpace c.param) = "CHMOD") →
      oneLogicalResponse w.trace.length (handleSITE env c w)) := by
  have h0 := hw.nextWrite
  refine ⟨?_, (handlePROT_single c w).oneLogicalResponse hw,
    (handlePBSZ_single c w).oneLogicalResponse hw,
    (handleSYST_single c w).oneLogicalResponse hw,
    (handleNOOP_single c w).oneLogicalResponse hw, ?_,
    (handleTYPE_single c w).1.oneLogicalResponse hw, ?_, ?_, ?_, ?_⟩
  · cases hcfg : c.server.driver.GetTLSConfig with
    | error e =>
      rw [handleAUTH_err c w e hcfg]
      exact oneLogicalResponse_of _ _ [Event.getTLSConfig] [] c.conn
        (toString StatusActionNotTaken ++ " " ++ ("Cannot get a TLS config: " ++ e.msg) ++
          "\r\n")
        w.nextWrite h0 (by simp [eventsAfter]) (by intro l hl; cases hl)
        (isStatusLine_status StatusActionNotTaken _ (by decide)) rfl
    | ok config =>
      rw [handleAUTH_ok_ok c w config hcfg h0]
      exact oneLogicalResponse_of _ _ [Event.getTLSConfig]
        [Event.tlsServer c.conn config, Event.newReader (Conn.tlsServer c.conn config)]
        c.conn
        (toString StatusAuthAccepted ++ " " ++ "AUTH command ok. Expecting TLS Negotiation." ++
          "\r\n")
        w.nextWrite rfl (by simp [eventsAfter]) (by intro l hl; cases hl)
        (isStatusLine_status StatusAuthAccepted _ (by decide)) rfl
  · obtain ⟨r, hr, hs, _⟩ := handleOPTS_single env c w
    exact ⟨r, hr, hs.oneLogicalResponse hw⟩
  · rw [handleQUIT_ok c w h0]
    exact oneLogicalResponse_of _ _ [] [Event.debug "Clean disconnect", Event.close c.conn]
      c.conn (toString StatusClosingControlConn ++ " " ++ "Goodbye" ++ "\r\n")
      w.nextWrite rfl (by simp [eventsAfter, Close]) (by intro l hl; cases hl)
      (isStatusLine_status StatusClosingControlConn "Goodbye" (by decide)) rfl
  · have hf := handleFEAT_ok c w hw
    refine oneLogicalResponse_of _ _
      (wrote c.conn (toString StatusSystemStatus ++ "- These are my features") ::
        (features c.server.settings).map fun f => wrote c.conn (" " ++ f))
      [] c.conn _ none hf.1 (eventsAfter_of_trace hf.2.2) ?_
      (isStatusLine_status StatusSystemStatus "End" (by decide)) rfl
    intro l hl
    have hcons : linesOf
        (wrote c.conn (toString StatusSystemStatus ++ "- These are my features") ::
          (features c.server.settings).map fun f => wrote c.conn (" " ++ f)) =
        (toString StatusSystemStatus ++ "- These are my features" ++ "\r\n") ::
          linesOf ((features c.server.settings).map fun f => wrote c.conn (" " ++ f)) := rfl
    rw [hcons, linesOf_feature_lines, List.mem_cons, List.mem_map] at hl
    rcases hl with rfl | ⟨f, _, rfl⟩
    · decide
    · exact isStatusLine_feature_line f
  · have hs := handleSTATServer_ok c w hw
    refine oneLogicalResponse_of _ _
      [wrote c.conn (toString StatusSystemStatus ++ "- FTP server status:"),
       wrote c.conn
         ("Connected to " ++ c.server.settings.ListenAddr ++ " from " ++ c.conn.RemoteAddr ++
           " for " ++
           DurationString
             (Sub w.now c.connectedAt - Int.tmod (Sub w.now c.connectedAt) Second)),
       wrote c.conn
         (if c.user ≠ "" then "Logged in as " ++ c.user else "Not logged in yet"),
       wrote c.conn "ftpserver - golang FTP server"]
      [] c.conn _ none hs.1 (eventsAfter_of_trace hs.2.2) ?_
      (isStatusLine_status StatusSystemStatus "End" (by decide)) rfl
    intro l hl
    simp only [linesOf, wrote, List.filterMap_cons, List.filterMap_nil, List.mem_cons,
      List.mem_singleton, List.not_mem_nil, or_false] at hl
    rcases hl with rfl | rfl | rfl | rfl
    · decide
    · exact isStatusLine_eq_false _ 'C' _ (by simp; rfl) (by decide)
    · by_cases hu : c.user = ""
      · simp only [hu, ne_eq, not_true_eq_false, if_false]
        decide
      · simp only [hu, ne_eq, not_false_eq_true, if_true]
        exact isStatusLine_eq_false _ 'L' _ (by simp; rfl) (by decide)
    · decide
  · intro hn
    exact (handleSITE_single env c w hn).1.oneLogicalResponse hw

/-- The witness of `one_logical_response`: the session `sampleNoTLS`. -/
theorem one_logical_response_witness :
    sampleWorld.allWritesSucceed ∧
    oneLogicalResponse 0 (handleAUTH sampleNoTLS sampleWorld) ∧
    oneLogicalResponse 0 (handleFEAT sampleNoTLS sampleWorld) ∧
    oneLogicalResponse 0 (handleSTATServer sampleNoTLS sampleWorld) :=
  have h := one_logical_response sampleEnv sampleNoTLS sampleWorld (by decide)
  ⟨by decide, h.1, h.2.2.2.2.2.2.2.2.1, h.2.2.2.2.2.2.2.2.2.1⟩
/-- Nothing fails in a stretch that ends without failure. -/
theorem endsAtFailure.all_none {es : List Event} (h : endsAtFailure es none) :
    ∀ x ∈ es, x.failure = none := by
  intro x hx
  rcases List.eq_nil_or_concat es with rfl | ⟨l, a, hes⟩
  · cases hx
  · rw [List.concat_eq_append] at hes
    subst hes
    have h1 := h.1
    have h2 := h.2
    rw [List.dropLast_concat] at h1
    rw [List.getLast?_concat] at h2
    rcases List.mem_append.mp hx with hx | hx
    · exact h1 x hx
    · rw [List.mem_singleton] at hx
      subst hx
      exact h2

/-- A stretch without failure followed by a stretch that ends at its first
failure ends at its first failure. -/
theorem endsAtFailure.append {a b : List Event} {err : Option GoError}
    (ha : endsAtFailure a none) (hb : endsAtFailure b err) : endsAtFailure (a ++ b) err := by
  rcases List.eq_nil_or_concat b with rfl | ⟨l, x, hb0⟩
  · have : err = none := hb.2.symm
    subst this
    simpa using ha
  · rw [List.concat_eq_append] at hb0
    subst hb0
    have h1 := hb.1
    have h2 := hb.2
    rw [List.dropLast_concat] at h1
    rw [List.getLast?_concat] at h2
    constructor
    · rw [← List.append_assoc, List.dropLast_concat]
      intro y hy
      rcases List.mem_append.mp hy with hy | hy
      · exact ha.all_none y hy
      · exact h1 y hy
    · rw [← List.append_assoc, List.getLast?_concat]
      exact h2

/-- One event alone ends at its own failure. -/
theorem endsAtFailure_single (x : Event) : endsAtFailure [x] x.failure := by
  unfold endsAtFailure
  exact ⟨(by simp), rfl⟩

/-- A handler whose added events end at their first failure, which is what it
returns, stops at a failed write. -/
theorem stopsAtFailedWrite_of (n : Nat) (r : Result)
    (h : endsAtFailure (eventsAfter n r.w) r.err) : stopsAtFailedWrite n r := by
  intro pre post conn data e hev
  rw [hev] at h
  have hpost : post = [] := by
    rcases List.eq_nil_or_concat post with hp | ⟨l, x, hp⟩
    · exact hp
    · exfalso
      have h1 := h.1
      rw [hp, List.concat_eq_append, ← List.cons_append, ← List.append_assoc,
        List.dropLast_concat] at h1
      have := h1 (Event.write conn data (some e)) (by simp)
      simp [Event.failure] at this
  subst hpost
  have h1 := h.1
  have h2 := h.2
  rw [List.dropLast_concat] at h1
  rw [List.getLast?_concat] at h2
  exact ⟨rfl, h2.symm, h1⟩

/-- A handler that makes one write and returns its outcome stops at a failed
write. -/
theorem singleStatusWrite.stopsAtFailedWrite {c : clientHandler} {w : World} {r : Result}
    (h : singleStatusWrite c w r) : Ftpserver.stopsAtFailedWrite w.trace.length r := by
  obtain ⟨code, text, _, he, hev⟩ := h
  apply stopsAtFailedWrite_of
  rw [hev, he]
  exact endsAtFailure_single _

/-- The loop of `handleFEAT`, whatever the outcome of the writes: the events
it adds end at the first failed write, which is what it returns. -/
theorem writeFeatures_endsAtFailure (c : clientHandler) (fs : List String) :
    ∀ w : World, ∃ es : List Event,
      (writeFeatures c w fs).2.trace = w.trace ++ es ∧
      endsAtFailure es (writeFeatures c w fs).1 := by
  induction fs with
  | nil => intro w; exact ⟨[], by simp [writeFeatures], by simp [writeFeatures, endsAtFailure]⟩
  | cons f fs ih =>
    intro w
    unfold writeFeatures
    simp only [writeLine_fst]
    cases hw : w.nextWrite with
    | some e =>
      refine ⟨[Event.write c.conn (" " ++ f ++ "\r\n") (some e)], ?_, ?_⟩
      · simp [hw]
      · exact endsAtFailure_single _
    | none =>
      obtain ⟨es, h1, h2⟩ := ih (writeLine c w (" " ++ f)).2
      refine ⟨Event.write c.conn (" " ++ f ++ "\r\n") none :: es, ?_, ?_⟩
      · simp only [h1, writeLine_trace, hw]
        simp
      · exact (endsAtFailure_single (Event.write c.conn (" " ++ f ++ "\r\n") none)).append h2

/-- The events that `handleFEAT` adds end at the first failed write, which is
what it returns. -/
theorem handleFEAT_endsAtFailure (c : clientHandler) (w : World) :
    endsAtFailure (eventsAfter w.trace.length (handleFEAT c w).w) (handleFEAT c w).err := by
  unfold handleFEAT
  simp only [writeLine_fst]
  cases hw : w.nextWrite with
  | some e =>
    simp only [eventsAfter, writeLine_trace, hw, List.drop_left]
    exact endsAtFailure_single _
  | none =>
    obtain ⟨es, h1, h2⟩ := writeFeatures_endsAtFailure c (features c.server.settings)
      (writeLine c w (toString StatusSystemStatus ++ "- These are my features")).2
    have hopen := endsAtFailure_single
      (Event.write c.conn (toString StatusSystemStatus ++ "- These are my features" ++ "\r\n")
        none)
    cases hf : (writeFeatures c
        (writeLine c w (toString StatusSystemStatus ++ "- These are my features")).2
        (features c.server.settings)).1 with
    | some e =>
      rw [hf] at h2
      simp only [eventsAfter, h1, writeLine_trace, hw, List.append_assoc, List.drop_left]
      exact hopen.append h2
    | none =>
      rw [hf] at h2
      simp only [eventsAfter, writeMessage_trace, writeMessage_fst, h1, writeLine_trace, hw,
        List.append_assoc, List.drop_left]
      exact hopen.append (h2.append (endsAtFailure_single _))

/-- The events that `handleSTATServer` adds end at the first failed write,
which is what it returns. -/
theorem handleSTATServer_endsAtFailure (c : clientHandler) (w : World) :
    endsAtFailure (eventsAfter w.trace.length (handleSTATServer c w).w)
      (handleSTATServer c w).err := by
  unfold handleSTATServer eventsAfter endsAtFailure
  simp only [writeLine_fst, writeMessage_fst]
  split
  · simp_all [Event.failure]
  · split
    · simp_all [Event.failure]
    · split
      · split_ifs <;> simp_all [Event.failure]
      · split
        · split_ifs <;> simp_all [Event.failure]
        · split_ifs <;> simp_all [Event.failure]
/-- The events that `handleAUTH` adds end at the first failed write, which is
what it returns. -/
theorem handleAUTH_endsAtFailure (c : clientHandler) (w : World) :
    endsAtFailure (eventsAfter w.trace.length (handleAUTH c w).w) (handleAUTH c w).err := by
  have hget := endsAtFailure_single Event.getTLSConfig
  cases hcfg : c.server.driver.GetTLSConfig with
  | error e =>
    rw [handleAUTH_err c w e hcfg]
    simp only [eventsAfter, writeMessage_trace, World.record_trace, World.record_nextWrite,
      List.append_assoc, List.drop_left]
    exact hget.append (endsAtFailure_single (Event.write c.conn _ w.nextWrite))
  | ok config =>
    cases hw : w.nextWrite with
    | some e =>
      rw [handleAUTH_ok_err c w config e hcfg hw]
      simp only [eventsAfter, writeMessage_trace, World.record_trace, World.record_nextWrite,
        List.append_assoc, List.drop_left, hw]
      exact hget.append (endsAtFailure_single (Event.write c.conn _ (some e)))
    | none =>
      rw [handleAUTH_ok_ok c w config hcfg hw]
      simp only [eventsAfter, writeMessage_trace, World.record_trace, World.record_nextWrite,
        List.append_assoc, List.drop_left, hw]
      exact hget.append ((endsAtFailure_single (Event.write c.conn _ none)).append
        ((endsAtFailure_single (Event.tlsServer c.conn config)).append
          (endsAtFailure_single (Event.newReader (Conn.tlsServer c.conn config)))))

/-- The events that `handleQUIT` adds end at the first failed write, which is
what it returns. -/
theorem handleQUIT_endsAtFailure (c : clientHandler) (w : World) :
    endsAtFailure (eventsAfter w.trace.length (handleQUIT c w).w) (handleQUIT c w).err := by
  cases hw : w.nextWrite with
  | some e =>
    rw [handleQUIT_err c w e hw]
    simp only [eventsAfter, writeMessage_trace, List.drop_left, hw]
    exact endsAtFailure_single (Event.write c.conn _ (some e))
  | none =>
    rw [handleQUIT_ok c w hw]
    simp only [eventsAfter, Close, writeMessage_trace, World.record_trace, List.append_assoc,
      List.drop_left, hw]
    exact (endsAtFailure_single (Event.write c.conn _ none)).append
      ((endsAtFailure_single (Event.debug "Clean disconnect")).append
        (endsAtFailure_single (Event.close c.conn)))

/-- C16: for every handler of this file that writes itself, and every outcome
of the writes: if one of the writes that the handler attempts fails with `e`,
that write is the last thing the handler does (no further write, no retry, no
later effect), every write before it has succeeded, and the handler returns
`e`.  `handleSTAT` is taken on the empty parameter and `handleSITE` on the
parameters that are not a `CHMOD` subcommand, where they do not delegate. -/
theorem stops_at_failed_write (env : Env) (c : clientHandler) (w : World) :
    stopsAtFailedWrite w.trace.length (handleAUTH c w) ∧
    stopsAtFailedWrite w.trace.length (handlePROT c w) ∧
    stopsAtFailedWrite w.trace.length (handlePBSZ c w) ∧
    stopsAtFailedWrite w.trace.length (handleSYST c w) ∧
    stopsAtFailedWrite w.trace.length (handleNOOP c w) ∧
    (∃ r : Result, handleOPTS env c w = some r ∧ stopsAtFailedWrite w.trace.length r) ∧
    stopsAtFailedWrite w.trace.length (handleTYPE c w) ∧
    stopsAtFailedWrite w.trace.length (handleQUIT c w) ∧
    stopsAtFailedWrite w.trace.length (handleFEAT c w) ∧
    stopsAtFailedWrite w.trace.length (handleSTATServer c w) ∧
    (c.param = "" → stopsAtFailedWrite w.trace.length (handleSTAT env c w)) ∧
    (¬ (hasSpace c.param ∧ ToUpper env.upperTable (beforeFirstSpace c.param) = "CHMOD") →
      stopsAtFailedWrite w.trace.length (handleSITE env c w)) := by
  refine ⟨stopsAtFailedWrite_of _ _ (handleAUTH_endsAtFailure c w),
    (handlePROT_single c w).stopsAtFailedWrite, (handlePBSZ_single c w).stopsAtFailedWrite,
    (handleSYST_single c w).stopsAtFailedWrite, (handleNOOP_single c w).stopsAtFailedWrite,
    ?_, (handleTYPE_single c w).1.stopsAtFailedWrite,
    stopsAtFailedWrite_of _ _ (handleQUIT_endsAtFailure c w),
    stopsAtFailedWrite_of _ _ (handleFEAT_endsAtFailure c w),
    stopsAtFailedWrite_of _ _ (handleSTATServer_endsAtFailure c w), ?_, ?_⟩
  · obtain ⟨r, hr, hs, _⟩ := handleOPTS_single env c w
    exact ⟨r, hr, hs.stopsAtFailedWrite⟩
  · intro hp
    have hEq : handleSTAT env c w = handleSTATServer c w := by simp [handleSTAT, hp]
    rw [hEq]
    exact stopsAtFailedWrite_of _ _ (handleSTATServer_endsAtFailure c w)
  · intro hn
    exact (handleSITE_single env c w hn).1.stopsAtFailedWrite

/-- The witness of `stops_at_failed_write`: with the third write failing,
`handleFEAT` and `handleSTATServer` stop in the middle of their block, after
three lines, and return the error; with the first write failing, `handleQUIT`
closes nothing. -/
theorem stops_at_failed_write_witness :
    (handleFEAT sampleNoTLS
        { sampleWorld with writes := [none, none, some { msg := "broken pipe" }] }).err =
      some { msg := "broken pipe" } ∧
    eventsAfter 0 (handleFEAT sampleNoTLS
        { sampleWorld with writes := [none, none, some { msg := "broken pipe" }] }).w =
      [Event.write sampleConn "211- These are my features\r\n" none,
       Event.write sampleConn " UTF8\r\n" none,
       Event.write sampleConn " SIZE\r\n" (some { msg := "broken pipe" })] ∧
    (handleSTATServer sampleNoTLS
        { sampleWorld with writes := [none, none, some { msg := "broken pipe" }] }).err =
      some { msg := "broken pipe" } ∧
    (handleQUIT sampleNoTLS sampleBrokenWorld).err = some { msg := "broken pipe" } :=
  ⟨((stops_at_failed_write sampleEnv sampleNoTLS
        { sampleWorld with writes := [none, none, some { msg := "broken pipe" }] }).2.2.2.2.2.2.2.2.1
      [Event.write sampleConn "211- These are my features\r\n" none,
       Event.write sampleConn " UTF8\r\n" none] []
      sampleConn " SIZE\r\n" { msg := "broken pipe" } (by decide)).2.1,
   by decide,
   ((stops_at_failed_write sampleEnv sampleNoTLS
        { sampleWorld with writes := [none, none, some { msg := "broken pipe" }] }).2.2.2.2.2.2.2.2.2.1
      [Event.write sampleConn "211- FTP server status:\r\n" none,
       Event.write sampleConn "Connected to 0.0.0.0:2121 from 192.0.2.7:50312 for 1m1s\r\n"
         none] []
      sampleConn "Not logged in yet\r\n" { msg := "broken pipe" } (by decide)).2.1,
   ((stops_at_failed_write sampleEnv sampleNoTLS sampleBrokenWorld).2.2.2.2.2.2.2.1
      [] [] sampleConn "221 Goodbye\r\n" { msg := "broken pipe" } (by decide)).2.1⟩
/-- C17: for every parameter, `strings.SplitN(param, " ", 2)` has one or two
parts; index 0 is in range (it is the text before the first space) and index 1
is in range whenever there are two parts.  So `handleOPTS` returns for every
parameter, with one status line written, and `handleSITE`, for every parameter
that is not a `CHMOD` subcommand, writes the one status line of
`StatusSyntaxErrorParameters`. -/
theorem split_index_in_range (env : Env) (c : clientHandler) (w : World) :
    1 ≤ (SplitN c.param " " 2).length ∧
    (SplitN c.param " " 2).length ≤ 2 ∧
    (SplitN c.param " " 2)[0]? = some (beforeFirstSpace c.param) ∧
    (1 < (SplitN c.param " " 2).length →
      (SplitN c.param " " 2)[1]? = some (afterFirstSpace c.param)) ∧
    (∃ r : Result, handleOPTS env c w = some r ∧ singleStatusWrite c w r) ∧
    (¬ (hasSpace c.param ∧ ToUpper env.upperTable (beforeFirstSpace c.param) = "CHMOD") →
      (handleSITE env c w).err = w.nextWrite ∧
      eventsAfter w.trace.length (handleSITE env c w).w =
        [Event.write c.conn
          (toString StatusSyntaxErrorParameters ++ " " ++ "Not understood SITE subcommand" ++
            "\r\n")
          w.nextWrite]) ∧
    (∀ p ∈ ["", " ", "   ", "abc", "CHMOD", " CHMOD 755 f"],
      ¬ (hasSpace p ∧ ToUpper env.upperTable (beforeFirstSpace p) = "CHMOD")) := by
  refine ⟨?_, ?_, ?_, ?_, ?_, ?_, ?_⟩
  · rw [SplitN_space]; split_ifs <;> simp
  · rw [SplitN_space]; split_ifs <;> simp
  · rw [SplitN_space]
    by_cases hs : hasSpace c.param
    · simp [hs]
    · simp [hs, beforeFirstSpace_of_not_hasSpace c.param hs]
  · rw [SplitN_space]
    by_cases hs : hasSpace c.param
    · simp [hs]
    · simp [hs]
  · obtain ⟨r, hr, hs, _⟩ := handleOPTS_single env c w
    exact ⟨r, hr, hs⟩
  · intro hn
    unfold handleSITE
    by_cases hs : hasSpace c.param
    · have hu : ¬ ToUpper env.upperTable (beforeFirstSpace c.param) = "CHMOD" :=
        fun hu => hn ⟨hs, hu⟩
      simp [SplitN_space, hs, hu, eventsAfter]
    · simp [SplitN_space, hs, eventsAfter]
  · intro p hp
    simp only [List.mem_cons, List.mem_singleton, List.not_mem_nil, or_false] at hp
    rcases hp with rfl | rfl | rfl | rfl | rfl | rfl
    · exact fun h => absurd h.1 (by decide)
    · exact fun h => absurd h.2 (by simp [ToUpper, beforeFirstSpace])
    · exact fun h => absurd h.2 (by simp [ToUpper, beforeFirstSpace])
    · exact fun h => absurd h.1 (by decide)
    · exact fun h => absurd h.1 (by decide)
    · exact fun h => absurd h.2 (by simp [ToUpper, beforeFirstSpace])

/-- The witness of `split_index_in_range`: the empty parameter and the
parameter of three spaces. -/
theorem split_index_in_range_witness :
    SplitN "" " " 2 = [""] ∧ SplitN "   " " " 2 = ["", "  "] ∧
    eventsAfter 0 (handleSITE sampleEnv { sampleNoTLS with param := "   " } sampleWorld).w =
      [Event.write sampleConn "501 Not understood SITE subcommand\r\n" none] :=
  ⟨by decide, by decide,
    ((split_index_in_range sampleEnv { sampleNoTLS with param := "   " } sampleWorld).2.2.2.2.2.1
      (by decide)).2.trans (by decide)⟩
/-- The line `Logged in as <user>` is never the line `Not logged in yet`. -/
theorem logged_in_ne_not_logged_in (user : String) :
    "Logged in as " ++ user ≠ "Not logged in yet" := by
  intro h
  have := congrArg String.data h
  simp at this

/-- C18: when every write succeeds, `handleSTATServer` writes five lines, in
this order: the opening line, the line with the listen address, the address
of the peer and the duration of the session, the line of the login state, the
line of the server identity and the closing line `End`.  The line of the login
state is `Logged in as <user>` exactly when the user of the session is not
empty, and `Not logged in yet` exactly when it is empty. -/
theorem handleSTATServer_five_lines (c : clientHandler) (w : World)
    (hw : w.allWritesSucceed) :
    eventsAfter w.trace.length (handleSTATServer c w).w =
      [wrote c.conn (toString StatusSystemStatus ++ "- FTP server status:"),
       wrote c.conn
         ("Connected to " ++ c.server.settings.ListenAddr ++ " from " ++ c.conn.RemoteAddr ++
           " for " ++
           DurationString
             (Sub w.now c.connectedAt - Int.tmod (Sub w.now c.connectedAt) Second)),
       wrote c.conn
         (if c.user ≠ "" then "Logged in as " ++ c.user else "Not logged in yet"),
       wrote c.conn "ftpserver - golang FTP server",
       wrote c.conn (toString StatusSystemStatus ++ " " ++ "End")] ∧
    (eventsAfter w.trace.length (handleSTATServer c w).w).length = 5 ∧
    ((if c.user ≠ "" then "Logged in as " ++ c.user else "Not logged in yet") =
        "Logged in as " ++ c.user ↔ c.user ≠ "") ∧
    ((if c.user ≠ "" then "Logged in as " ++ c.user else "Not logged in yet") =
        "Not logged in yet" ↔ c.user = "") := by
  have hev := eventsAfter_of_trace (handleSTATServer_ok c w hw).2.2
  refine ⟨hev, by rw [hev]; rfl, ?_, ?_⟩
  · by_cases hu : c.user = ""
    · simp only [hu, ne_eq, not_true_eq_false, if_false, iff_false]
      decide
    · simp [hu]
  · by_cases hu : c.user = ""
    · simp [hu]
    · simp only [hu, ne_eq, not_false_eq_true, if_true, iff_false]
      exact logged_in_ne_not_logged_in c.user

/-- The witness of `handleSTATServer_five_lines`: a session without user and
a session of the user `alice`. -/
theorem handleSTATServer_five_lines_witness :
    sampleWorld.allWritesSucceed ∧
    eventsAfter 0 (handleSTATServer sampleNoTLS sampleWorld).w =
      [wrote sampleConn "211- FTP server status:",
       wrote sampleConn "Connected to 0.0.0.0:2121 from 192.0.2.7:50312 for 1m1s",
       wrote sampleConn "Not logged in yet",
       wrote sampleConn "ftpserver - golang FTP server",
       wrote sampleConn "211 End"] ∧
    eventsAfter 0 (handleSTATServer sampleTLS sampleWorld).w =
      [wrote sampleConn "211- FTP server status:",
       wrote sampleConn "Connected to 0.0.0.0:2121 from 192.0.2.7:50312 for 1m1s",
       wrote sampleConn "Logged in as alice",
       wrote sampleConn "ftpserver - golang FTP server",
       wrote sampleConn "211 End"] :=
  ⟨by decide,
    (handleSTATServer_five_lines sampleNoTLS sampleWorld (by decide)).1.trans (by decide),
    (handleSTATServer_five_lines sampleTLS sampleWorld (by decide)).1.trans (by decide)⟩

/-- C19: `handleAUTH` calls `GetTLSConfig` once.  It replaces the connection
of the session exactly when that call succeeds and the write of the
announcement succeeds; then the new connection is the TLS server over the
connection the session had, with the configuration returned, the new reader is
a new reader over the new connection, no other field changes and `nil` is
returned.  When the call succeeds and the write fails, the session is as it
was and the error of the write is returned; when the call fails, the session
is as it was. -/
theorem handleAUTH_transport (c : clientHandler) (w : World) :
    (eventsAfter w.trace.length (handleAUTH c w).w).count Event.getTLSConfig = 1 ∧
    ((handleAUTH c w).c.conn ≠ c.conn ↔
      ∃ config, c.server.driver.GetTLSConfig = .ok config ∧ w.nextWrite = none) ∧
    (∀ config, c.server.driver.GetTLSConfig = .ok config → w.nextWrite = none →
      (handleAUTH c w).c =
        { c with conn := Conn.tlsServer c.conn config,
                 reader := { rd := Conn.tlsServer c.conn config, buf := [] } } ∧
      (handleAUTH c w).c.reader = NewReader (handleAUTH c w).c.conn ∧
      (handleAUTH c w).c.reader.rd ≠ c.conn ∧
      (handleAUTH c w).err = none) ∧
    (∀ config e, c.server.driver.GetTLSConfig = .ok config → w.nextWrite = some e →
      (handleAUTH c w).c = c ∧ (handleAUTH c w).err = some e) ∧
    (∀ e, c.server.driver.GetTLSConfig = .error e →
      (handleAUTH c w).c = c ∧ (handleAUTH c w).err = w.nextWrite) := by
  refine ⟨?_, ?_, ?_, ?_, ?_⟩
  · cases hcfg : c.server.driver.GetTLSConfig with
    | error e =>
      rw [handleAUTH_err c w e hcfg]
      simp [eventsAfter]
    | ok config =>
      cases hw : w.nextWrite with
      | some e => rw [handleAUTH_ok_err c w config e hcfg hw]; simp [eventsAfter]
      | none => rw [handleAUTH_ok_ok c w config hcfg hw]; simp [eventsAfter]
  · constructor
    · intro hne
      cases hcfg : c.server.driver.GetTLSConfig with
      | error e => rw [handleAUTH_err c w e hcfg] at hne; exact absurd rfl hne
      | ok config =>
        cases hw : w.nextWrite with
        | some e => rw [handleAUTH_ok_err c w config e hcfg hw] at hne; exact absurd rfl hne
        | none => exact ⟨config, rfl, rfl⟩
    · rintro ⟨config, hcfg, hw⟩
      rw [handleAUTH_ok_ok c w config hcfg hw]
      exact Conn.tlsServer_ne_self _ _
  · intro config hcfg hw
    rw [handleAUTH_ok_ok c w config hcfg hw]
    exact ⟨rfl, rfl, Conn.tlsServer_ne_self _ _, rfl⟩
  · intro config e hcfg hw
    rw [handleAUTH_ok_err c w config e hcfg hw]
    exact ⟨rfl, rfl⟩
  · intro e hcfg
    rw [handleAUTH_err c w e hcfg]
    exact ⟨rfl, rfl⟩

/-- The witness of `handleAUTH_transport`: the session `sampleTLS`, with the
write succeeding and with the write failing. -/
theorem handleAUTH_transport_witness :
    (handleAUTH sampleTLS sampleWorld).c.conn = Conn.tlsServer sampleConn { id := 1 } ∧
    (handleAUTH sampleTLS sampleWorld).c.reader =
      NewReader (Conn.tlsServer sampleConn { id := 1 }) ∧
    (handleAUTH sampleTLS sampleBrokenWorld).c.conn = sampleConn ∧
    (handleAUTH sampleTLS sampleBrokenWorld).err = some { msg := "broken pipe" } :=
  have h1 := (handleAUTH_transport sampleTLS sampleWorld).2.2.1 { id := 1 } rfl rfl
  have h2 := (handleAUTH_transport sampleTLS sampleBrokenWorld).2.2.2.1 { id := 1 }
    { msg := "broken pipe" } rfl rfl
  ⟨congrArg clientHandler.conn h1.1, congrArg clientHandler.reader h1.1,
    congrArg clientHandler.conn h2.1, h2.2⟩

/-- The handler `handleFEAT` leaves the session as it was, whatever the
outcome of the writes. -/
theorem handleFEAT_session (c : clientHandler) (w : World) : (handleFEAT c w).c = c := by
  unfold handleFEAT
  simp only [writeLine_fst, writeMessage_fst]
  repeat' split
  all_goals rfl

/-- The handler `handleSTATServer` leaves the session as it was, whatever the
outcome of the writes. -/
theorem handleSTATServer_session (c : clientHandler) (w : World) :
    (handleSTATServer c w).c = c := by
  unfold handleSTATServer
  simp only [writeLine_fst, writeMessage_fst]
  repeat' split
  all_goals rfl

/-- C20: the handlers `handlePBSZ`, `handleSYST`, `handleNOOP`, `handleOPTS`,
`handleTYPE`, `handleFEAT` and `handleSTATServer` leave every field of the
session as it was, for every parameter and every outcome of the writes; and
what `handlePBSZ`, `handleSYST` and `handleNOOP` write and return is the same
for every parameter. -/
theorem handlers_leave_session (env : Env) (c : clientHandler) (w : World) :
    (handlePBSZ c w).c = c ∧
    (handleSYST c w).c = c ∧
    (handleNOOP c w).c = c ∧
    (∃ r : Result, handleOPTS env c w = some r ∧ r.c = c) ∧
    (handleTYPE c w).c = c ∧
    (handleFEAT c w).c = c ∧
    (handleSTATServer c w).c = c ∧
    (∀ p : String,
      (handlePBSZ { c with param := p } w).w = (handlePBSZ c w).w ∧
      (handlePBSZ { c with param := p } w).err = (handlePBSZ c w).err) ∧
    (∀ p : String,
      (handleSYST { c with param := p } w).w = (handleSYST c w).w ∧
      (handleSYST { c with param := p } w).err = (handleSYST c w).err) ∧
    (∀ p : String,
      (handleNOOP { c with param := p } w).w = (handleNOOP c w).w ∧
      (handleNOOP { c with param := p } w).err = (handleNOOP c w).err) := by
  refine ⟨rfl, rfl, rfl, ?_, (handleTYPE_single c w).2, handleFEAT_session c w,
    handleSTATServer_session c w, fun p => ⟨rfl, rfl⟩, fun p => ⟨rfl, rfl⟩,
    fun p => ⟨rfl, rfl⟩⟩
  obtain ⟨r, hr, _, hc⟩ := handleOPTS_single env c w
  exact ⟨r, hr, hc⟩
end Ftpserver
